import Mathlib

/-!
Shallow embedding of the data-preparation pipeline
(`src/data_reader.py`, `src/transformer.py`).

Python floats are modelled as rationals (`ℚ`); Python values flowing
through rows are modelled by `PyVal`; fallible Python code is modelled by
`Except String`/`Option` results.  Where a Python standard-library
collaborator (`ast.literal_eval`, `json.loads`, `datetime.strptime`) is
invoked by the source, the fragment of its behaviour exercised by the
repository is modelled explicitly below, with the modelled fragment
documented at the definition.
-/

/-- Model of a Python value as it occurs in the pipeline's rows:
strings, ints, floats (as `ℚ`), booleans, `None`, lists, and
string-keyed dicts (the only dicts the pipeline builds or reads). -/
inductive PyVal where
  | str : String → PyVal
  | int : Int → PyVal
  | float : ℚ → PyVal
  | bool : Bool → PyVal
  | none : PyVal
  | list : List PyVal → PyVal
  | dict : List (String × PyVal) → PyVal
deriving Inhabited

/-- The character for a decimal digit. -/
def decDigit : Nat → Char
  | 0 => '0' | 1 => '1' | 2 => '2' | 3 => '3' | 4 => '4'
  | 5 => '5' | 6 => '6' | 7 => '7' | 8 => '8' | _ => '9'

/-- Numeric value of a decimal digit character. -/
def decVal (c : Char) : Nat := c.toNat - 48

/-- Little-endian decimal digit characters of `n` (fuel-indexed). -/
def toDigsAux : Nat → Nat → List Char
  | 0, _ => []
  | fuel+1, n =>
    if n < 10 then [decDigit n]
    else decDigit (n % 10) :: toDigsAux fuel (n / 10)

/-- Decimal rendering of a natural number (the rendering used by Python's
f-strings and `str()` on a nonnegative int). -/
def natRepr (n : Nat) : String := String.mk (toDigsAux (n + 1) n).reverse

/-- Decimal rendering of a Python int, with a leading minus sign. -/
def intRepr (n : Int) : String :=
  if n < 0 then "-" ++ natRepr n.natAbs else natRepr n.toNat

/-- Python `str()` of a float.  Exact only for floats the pipeline ever
renders; no claim depends on the rendering of non-integral floats. -/
def floatRepr (q : ℚ) : String :=
  if q.den = 1 then intRepr q.num ++ ".0"
  else intRepr q.num ++ "/" ++ natRepr q.den

mutual

/-- Python `repr()` of a value (fragment: enough for `str()` of
containers; string escaping inside containers is not modelled, and no
claim depends on it). -/
def pyRepr : PyVal → String
  | .str s => "'" ++ s ++ "'"
  | .int n => intRepr n
  | .float q => floatRepr q
  | .bool b => if b then "True" else "False"
  | .none => "None"
  | .list l => "[" ++ pyReprList l ++ "]"
  | .dict l => "\x7b" ++ pyReprDict l ++ "\x7d"

/-- Comma-joined `repr()`s of list elements. -/
def pyReprList : List PyVal → String
  | [] => ""
  | [x] => pyRepr x
  | x :: xs => pyRepr x ++ ", " ++ pyReprList xs

/-- Comma-joined `'key': repr(value)` renderings of dict entries. -/
def pyReprDict : List (String × PyVal) → String
  | [] => ""
  | [(k, v)] => "'" ++ k ++ "': " ++ pyRepr v
  | (k, v) :: xs => "'" ++ k ++ "': " ++ pyRepr v ++ ", " ++ pyReprDict xs

end

/-- Python `str()` of a value: identity on strings, `repr`-like elsewhere. -/
def pyStr : PyVal → String
  | .str s => s
  | v => pyRepr v

/-- Python `d[k]`-style lookup on a string-keyed dict. -/
def dictLookup (l : List (String × PyVal)) (k : String) : Option PyVal :=
  (l.find? (fun p => p.1 == k)).map (fun p => p.2)

/-- Python `d.get(k, dflt)`. -/
def dictGet (l : List (String × PyVal)) (k : String) (dflt : PyVal) : PyVal :=
  (dictLookup l k).getD dflt

/-- Python `d.get(k)` (default `None`). -/
def dictGetOpt (l : List (String × PyVal)) (k : String) : PyVal :=
  (dictLookup l k).getD .none

/-- Splits a character list on `,` (Python `str.split(',')`:
`n` separators yield `n+1` possibly-empty parts). -/
def splitCommas : List Char → List (List Char)
  | [] => [[]]
  | c :: r =>
    if c = ',' then [] :: splitCommas r
    else
      match splitCommas r with
      | p :: ps => (c :: p) :: ps
      | [] => [[c]]

/-- Splits a character list on `.`. -/
def splitDots : List Char → List (List Char)
  | [] => [[]]
  | c :: r =>
    if c = '.' then [] :: splitDots r
    else
      match splitDots r with
      | p :: ps => (c :: p) :: ps
      | [] => [[c]]

/-- Value of a decimal digit string (big-endian), as used by `float()`. -/
def digitsVal (l : List Char) : Nat :=
  l.foldl (fun a c => 10 * a + (c.toNat - 48)) 0

/-- Python `float()` on a string known to contain only decimal digits and
dots (the only strings `_parse_currency_amount` feeds it): succeeds iff
there is at most one dot and at least one digit. -/
def floatOfClean (cs : List Char) : Option ℚ :=
  match splitDots cs with
  | [a] => if a = [] then Option.none else some (mkRat (digitsVal a) 1)
  | [a, b] =>
    if a = [] ∧ b = [] then Option.none
    else some (mkRat (digitsVal a * 10 ^ b.length + digitsVal b) (10 ^ b.length))
  | _ => Option.none

/-- Cleaning step 1 (src/transformer.py:98): `re.sub(r'[€$£¥]', '', s)`. -/
def stripCurrencySyms (cs : List Char) : List Char :=
  cs.filter (fun c => ¬ (c = '€' ∨ c = '$' ∨ c = '£' ∨ c = '¥'))

/-- Cleaning step 2 (src/transformer.py:101-113): resolve `,`/`.`
separator conventions. -/
def resolveSeps (a0 : List Char) : List Char :=
  if ',' ∈ a0 ∧ '.' ∈ a0 then
    (a0.filter (fun c => c ≠ '.')).map (fun c => if c = ',' then '.' else c)
  else if ',' ∈ a0 then
    match splitCommas a0 with
    | [_, y] =>
      if y.length ≤ 2 then a0.map (fun c => if c = ',' then '.' else c)
      else a0.filter (fun c => c ≠ ',')
    | _ => a0.filter (fun c => c ≠ ',')
  else a0

/-- Cleaning step 3 (src/transformer.py:116): `re.sub(r'[^0-9.]', '', s)`. -/
def keepDigitsDots (cs : List Char) : List Char :=
  cs.filter (fun c => c.isDigit ∨ c = '.')

/-- `DataTransformer._parse_currency_amount` (src/transformer.py:89-122),
returning the parsed amount together with whether a warning was logged.
Non-string input returns `0.0` silently; the staged cleaning above
strips currency symbols, resolves `,`/`.` separators and drops any
remaining non-digit non-dot character, and `float()` failure falls back
to `0.0` with a warning. -/
def parse_currency_full (v : PyVal) : ℚ × Bool :=
  match v with
  | .str s =>
    match floatOfClean (keepDigitsDots (resolveSeps (stripCurrencySyms s.data))) with
    | some q => (q, false)
    | Option.none => (0, true)
  | _ => (0, false)

/-- The numeric result of `_parse_currency_amount`. -/
def parse_currency (v : PyVal) : ℚ := (parse_currency_full v).1

example : parse_currency (.str "$50.25") = 50.25 := by
  rw [show parse_currency (.str "$50.25") = mkRat 5025 100 from rfl, Rat.mkRat_eq_div]
  norm_num
example : parse_currency (.str "€100,50") = 100.50 := by
  rw [show parse_currency (.str "€100,50") = mkRat 10050 100 from rfl, Rat.mkRat_eq_div]
  norm_num
example : parse_currency (.str "£200.00") = 200.00 := by
  rw [show parse_currency (.str "£200.00") = mkRat 20000 100 from rfl, Rat.mkRat_eq_div]
  norm_num
example : parse_currency (.str "¥5000") = 5000 := by
  rw [show parse_currency (.str "¥5000") = mkRat 5000 1 from rfl, Rat.mkRat_eq_div]
  norm_num
example : parse_currency (.str "abc") = 0 := rfl
example : parse_currency (.int 5) = 0 := rfl
example : parse_currency (.str "1.234,56") = 1234.56 := by
  rw [show parse_currency (.str "1.234,56") = mkRat 123456 100 from rfl, Rat.mkRat_eq_div]
  norm_num
example : parse_currency (.str "1,234") = 1234 := by
  rw [show parse_currency (.str "1,234") = mkRat 1234 1 from rfl, Rat.mkRat_eq_div]
  norm_num

/-! ## Header Normalizer (column-cleaning block of `CSVReader.read_data`,
src/data_reader.py:15-35) -/

/-- Python `str.strip()` whitespace test (ASCII fragment; the headers the
pipeline sees contain only ASCII whitespace). -/
def pyWs (c : Char) : Bool := c = ' ' ∨ c = '\t' ∨ c = '\n' ∨ c = '\r'

/-- Python `str.strip()`: drop leading and trailing whitespace. -/
def pyStrip (cs : List Char) : List Char :=
  ((cs.dropWhile pyWs).reverse.dropWhile pyWs).reverse

/-- `col.strip().lower().replace(' ', '_')` (src/data_reader.py:22).
`str.lower()` is modelled on its ASCII fragment by `Char.toLower`. -/
def cleanCol (s : String) : String :=
  String.mk (((pyStrip s.data).map Char.toLower).map (fun c => if c = ' ' then '_' else c))

/-- The candidate name `f"{base}_{k}"` tried by the collision loop
(src/data_reader.py:29). -/
def candName (base : String) (k : Nat) : String := base ++ "_" ++ natRepr k

/-- The `while f"{cleaned_col}_{suffix}" in seen_columns: suffix += 1`
loop (src/data_reader.py:28-31), fuel-indexed; `seen.length` fuel always
suffices (`pickSuffix_spec`). -/
def pickSuffix (base : String) (seen : List String) : Nat → Nat → String
  | 0, k => candName base k
  | fuel+1, k =>
    if candName base k ∈ seen then pickSuffix base seen fuel (k + 1)
    else candName base k

/-- One iteration of the column-cleaning loop body
(src/data_reader.py:21-33): clean the header, and on collision with an
already-emitted name search suffixes from `_1` upward. -/
def normStep (seen : List String) (col : String) : String :=
  let c := cleanCol col
  if c ∈ seen then pickSuffix c seen seen.length 1 else c

/-- The column-cleaning loop, threading the set of already-emitted names
(`seen_columns`; modelled as the list of emitted names, which has the
same membership). -/
def normalizeAux : List String → List String → List String
  | _, [] => []
  | seen, c :: cs =>
    let n := normStep seen c
    n :: normalizeAux (n :: seen) cs

/-- The Header Normalizer: the column-cleaning logic of
`CSVReader.read_data` applied to the raw header sequence. -/
def clean_columns (cols : List String) : List String := normalizeAux [] cols

example : clean_columns ["customer_id", " Names", "Mail", "Account Created At"] =
    ["customer_id", "names", "mail", "account_created_at"] := by decide
example : clean_columns ["a", "A", "a_1", "a"] = ["a", "a_1", "a_1_1", "a_2"] := by decide

theorem valAux_toDigsAux : ∀ fuel n, n < fuel →
    (toDigsAux fuel n).foldr (fun c acc => decVal c + 10 * acc) 0 = n := by
  intro fuel
  induction fuel with
  | zero => intro n h; omega
  | succ f ih =>
    intro n h
    by_cases h10 : n < 10
    · have hd : decVal (decDigit n) = n := by
        revert h10
        have : ∀ m, m < 10 → decVal (decDigit m) = m := by decide
        exact this n
      simp [toDigsAux, h10, hd]
    · have hdiv : n / 10 < f := by
        have h1 : n / 10 < n := Nat.div_lt_self (by omega) (by omega)
        omega
      have hd : decVal (decDigit (n % 10)) = n % 10 := by
        have : ∀ m, m < 10 → decVal (decDigit m) = m := by decide
        exact this (n % 10) (Nat.mod_lt n (by omega))
      simp [toDigsAux, h10, ih (n / 10) hdiv, hd]
      omega

theorem natRepr_injective : ∀ a b : Nat, natRepr a = natRepr b → a = b := by
  intro a b h
  have hdata : (toDigsAux (a + 1) a).reverse = (toDigsAux (b + 1) b).reverse :=
    congrArg String.data h
  have hlist : toDigsAux (a + 1) a = toDigsAux (b + 1) b :=
    List.reverse_injective hdata
  have ha := valAux_toDigsAux (a + 1) a (Nat.lt_succ_self a)
  have hb := valAux_toDigsAux (b + 1) b (Nat.lt_succ_self b)
  rw [← ha, ← hb, hlist]

theorem candName_injective (base : String) {a b : Nat}
    (h : candName base a = candName base b) : a = b := by
  have hdata : base.data ++ ('_' :: (natRepr a).data) = base.data ++ ('_' :: (natRepr b).data) := by
    have := congrArg String.data h
    simpa [candName, String.data_append] using this
  have htail := List.append_cancel_left hdata
  have hrep : (natRepr a).data = (natRepr b).data := by
    injection htail
  have hrepr : natRepr a = natRepr b := by
    have h1 : String.mk (natRepr a).data = String.mk (natRepr b).data := by rw [hrep]
    exact h1
  exact natRepr_injective a b hrepr

theorem exists_free_suffix (base : String) (seen : List String) (k : Nat) :
    ∃ j, k ≤ j ∧ j ≤ k + seen.length ∧ candName base j ∉ seen := by
  by_contra hall
  push_neg at hall
  set n := seen.length with hn
  have hmem : ∀ i, i < n + 1 → candName base (k + i) ∈ seen := by
    intro i hi
    exact hall (k + i) (Nat.le_add_right k i) (by omega)
  set names : List String := (List.range (n + 1)).map (fun i => candName base (k + i)) with hnames
  have hnodup : names.Nodup := by
    refine List.Nodup.map ?_ (List.nodup_range _)
    intro i j hij
    have := candName_injective base hij
    omega
  have hsub : ∀ x ∈ names, x ∈ seen := by
    intro x hx
    rw [hnames] at hx
    obtain ⟨i, hi, rfl⟩ := List.mem_map.mp hx
    exact hmem i (List.mem_range.mp hi)
  have hlen : names.length = n + 1 := by simp [hnames]
  have hcard1 : names.toFinset.card = n + 1 := by
    rw [List.toFinset_card_of_nodup hnodup, hlen]
  have hcard2 : names.toFinset ⊆ seen.toFinset := by
    intro x hx
    exact List.mem_toFinset.mpr (hsub x (List.mem_toFinset.mp hx))
  have := Finset.card_le_card hcard2
  have hcard3 : seen.toFinset.card ≤ n := by
    calc seen.toFinset.card ≤ seen.length := seen.toFinset_card_le
    _ = n := hn.symm
  omega

theorem pickSuffix_eq (base : String) (seen : List String) :
    ∀ fuel k, (∃ j, k ≤ j ∧ j ≤ k + fuel ∧ candName base j ∉ seen) →
      ∃ m, k ≤ m ∧ pickSuffix base seen fuel k = candName base m ∧
        candName base m ∉ seen ∧ ∀ j, k ≤ j → j < m → candName base j ∈ seen := by
  intro fuel
  induction fuel with
  | zero =>
    intro k h
    obtain ⟨j, hkj, hjk, hout⟩ := h
    have hjk' : j = k := by omega
    rw [hjk'] at hout
    exact ⟨k, le_refl k, rfl, hout, fun j h1 h2 => absurd (lt_of_le_of_lt h1 h2) (lt_irrefl k)⟩
  | succ f ih =>
    intro k h
    obtain ⟨j, hkj, hjk, hout⟩ := h
    by_cases hk : candName base k ∈ seen
    · have hjne : j ≠ k := by rintro rfl; exact hout hk
      obtain ⟨m, hm1, hm2, hm3, hm4⟩ := ih (k + 1) ⟨j, by omega, by omega, hout⟩
      refine ⟨m, by omega, ?_, hm3, ?_⟩
      · simp [pickSuffix, hk, hm2]
      · intro j' h1 h2
        rcases Nat.eq_or_lt_of_le h1 with rfl | hlt
        · exact hk
        · exact hm4 j' hlt h2
    · exact ⟨k, le_refl k, by simp [pickSuffix, hk], hk,
        fun j' h1 h2 => absurd (lt_of_le_of_lt h1 h2) (lt_irrefl k)⟩

theorem normStep_not_mem (seen : List String) (col : String) :
    normStep seen col ∉ seen := by
  by_cases hc : cleanCol col ∈ seen
  · have heq : normStep seen col = pickSuffix (cleanCol col) seen seen.length 1 := by
      simp [normStep, hc]
    rw [heq]
    obtain ⟨j, h1, h2, h3⟩ := exists_free_suffix (cleanCol col) seen 1
    obtain ⟨m, _, heq2, hout, _⟩ :=
      pickSuffix_eq (cleanCol col) seen seen.length 1 ⟨j, h1, by omega, h3⟩
    rw [heq2]; exact hout
  · have heq : normStep seen col = cleanCol col := by simp [normStep, hc]
    rw [heq]; exact hc

theorem normalizeAux_length : ∀ cols seen, (normalizeAux seen cols).length = cols.length := by
  intro cols
  induction cols with
  | nil => intro seen; rfl
  | cons c cs ih => intro seen; simp [normalizeAux, ih]

theorem normalizeAux_disjoint :
    ∀ cols seen x, x ∈ normalizeAux seen cols → x ∉ seen := by
  intro cols
  induction cols with
  | nil => intro seen x hx; simp [normalizeAux] at hx
  | cons c cs ih =>
    intro seen x hx
    simp only [normalizeAux, List.mem_cons] at hx
    rcases hx with rfl | hx
    · exact normStep_not_mem seen c
    · have := ih (normStep seen c :: seen) x hx
      intro hmem
      exact this (List.mem_cons_of_mem _ hmem)

theorem normalizeAux_nodup : ∀ cols seen, (normalizeAux seen cols).Nodup := by
  intro cols
  induction cols with
  | nil => intro seen; simp [normalizeAux]
  | cons c cs ih =>
    intro seen
    simp only [normalizeAux, List.nodup_cons]
    refine ⟨?_, ih _⟩
    intro hmem
    have := normalizeAux_disjoint cs (normStep seen c :: seen) _ hmem
    exact this (List.mem_cons_self _ _)

/-! ## Tolerant Structured-Text Parser (`DataTransformer._parse_address`,
src/transformer.py:15-67) -/

/-- Repair step 1 (src/transformer.py:29): `re.sub(r'(\d+-\d+)', r"'\1'", s)`.
Quote-wraps each maximal `digits-digits` token, scanning left to right and
resuming after each replacement, exactly as `re.sub` does.  Fuel-indexed;
every step consumes at least one character, so `cs.length` fuel suffices. -/
def quoteHyph : Nat → List Char → List Char
  | 0, cs => cs
  | _+1, [] => []
  | fuel+1, c :: cs =>
    if c.isDigit then
      let d1 := (c :: cs).takeWhile Char.isDigit
      let r1 := (c :: cs).dropWhile Char.isDigit
      if r1.head? = some '-' then
        let r2 := r1.tail
        let d2 := r2.takeWhile Char.isDigit
        if d2.isEmpty then d1 ++ quoteHyph fuel r1
        else '\'' :: (d1 ++ '-' :: (d2 ++ '\'' :: quoteHyph fuel (r2.dropWhile Char.isDigit)))
      else d1 ++ quoteHyph fuel r1
    else c :: quoteHyph fuel cs

/-- Repair step 2 (src/transformer.py:32-40): if the counts of opening and
closing braces differ and there are more opening braces, append the
missing closing braces (never removes a brace). -/
def braceFix (cs : List Char) : List Char :=
  let o := cs.count '\x7b'
  let c := cs.count '\x7d'
  if o ≠ c then
    if o > c then cs ++ List.replicate (o - c) '\x7d' else cs
  else cs

/-- The literal part of the pattern in
`re.sub(r"post code': (\d+-\d+)", ...)` (src/transformer.py:45). -/
def sub2Pat : List Char :=
  ['p', 'o', 's', 't', ' ', 'c', 'o', 'd', 'e', '\'', ':', ' ']

/-- Repair step 3 (src/transformer.py:45): quote a bare hyphenated-digits
post code appearing right after `post code': `.  Scanning model of
`re.sub` as in `quoteHyph`. -/
def sub2 : Nat → List Char → List Char
  | 0, cs => cs
  | _+1, [] => []
  | fuel+1, c :: cs =>
    if sub2Pat.isPrefixOf (c :: cs) then
      let rest := (c :: cs).drop sub2Pat.length
      let d1 := rest.takeWhile Char.isDigit
      let r1 := rest.dropWhile Char.isDigit
      if d1.isEmpty then c :: sub2 fuel cs
      else if r1.head? = some '-' then
        let r2 := r1.tail
        let d2 := r2.takeWhile Char.isDigit
        if d2.isEmpty then c :: sub2 fuel cs
        else sub2Pat ++ '\'' :: (d1 ++ '-' :: (d2 ++ '\'' :: sub2 fuel (r2.dropWhile Char.isDigit)))
      else c :: sub2 fuel cs
    else c :: sub2 fuel cs

/-- Python dict insertion semantics for repeated keys: the later value
wins, the original position is kept. -/
def insertKV (l : List (String × PyVal)) (k : String) (v : PyVal) : List (String × PyVal) :=
  if l.any (fun p => p.1 == k) then
    l.map (fun p => if p.1 == k then (k, v) else p)
  else l ++ [(k, v)]

mutual

/-- Fragment of `ast.literal_eval` exercised by the repository: nested
single-quoted strings (without escape sequences), unsigned integer
literals, `None`/`True`/`False`, and dict displays with string keys.
Inputs outside this fragment fail, as the malformed inputs of the claims
do in Python.  Fuel-indexed; every recursive call consumes input, so
`length + 2` fuel suffices. -/
def parseLit : Nat → List Char → Option (PyVal × List Char)
  | 0, _ => Option.none
  | fuel+1, cs =>
    match cs.dropWhile pyWs with
    | '\'' :: r =>
      let body := r.takeWhile (fun c => c ≠ '\'')
      match r.dropWhile (fun c => c ≠ '\'') with
      | '\'' :: r2 => some (.str (String.mk body), r2)
      | _ => Option.none
    | '\x7b' :: r =>
      match r.dropWhile pyWs with
      | '\x7d' :: r2 => some (.dict [], r2)
      | _ => (parseEntriesLit fuel [] r).map (fun p => (.dict p.1, p.2))
    | 'N' :: 'o' :: 'n' :: 'e' :: r => some (.none, r)
    | 'T' :: 'r' :: 'u' :: 'e' :: r => some (.bool true, r)
    | 'F' :: 'a' :: 'l' :: 's' :: 'e' :: r => some (.bool false, r)
    | c :: r =>
      if c.isDigit then
        some (.int (digitsVal ((c :: r).takeWhile Char.isDigit)), (c :: r).dropWhile Char.isDigit)
      else Option.none
    | [] => Option.none

/-- Entries of a Python dict display: `key : value` pairs separated by
commas, terminated by a closing brace. -/
def parseEntriesLit : Nat → List (String × PyVal) → List Char →
    Option (List (String × PyVal) × List Char)
  | 0, _, _ => Option.none
  | fuel+1, acc, cs =>
    match parseLit fuel cs with
    | some (.str k, r1) =>
      match r1.dropWhile pyWs with
      | ':' :: r2 =>
        match parseLit fuel r2 with
        | some (v, r3) =>
          match r3.dropWhile pyWs with
          | ',' :: r4 => parseEntriesLit fuel (insertKV acc k v) r4
          | '\x7d' :: r4 => some (insertKV acc k v, r4)
          | _ => Option.none
        | Option.none => Option.none
      | _ => Option.none
    | _ => Option.none

end

/-- `ast.literal_eval` on a whole string: one literal, then at most
trailing whitespace. -/
def literalEval (cs : List Char) : Option PyVal :=
  match parseLit (cs.length + 2) cs with
  | some (v, rest) => if rest.dropWhile pyWs = [] then some v else Option.none
  | Option.none => Option.none

/-- The repair pipeline of `_parse_address` (src/transformer.py:25-45):
strip, quote hyphenated digit pairs, balance braces, quote a bare
hyphenated post code. -/
def repairAddr (s : String) : List Char :=
  let c0 := pyStrip s.data
  let c1 := quoteHyph c0.length c0
  let c2 := braceFix c1
  sub2 c2.length c2

/-- `DataTransformer._parse_address` (src/transformer.py:15-67).
`Option.none` models the Python `None` the source returns on every parse
failure, on a repaired literal that is not a dict with key `'address'`
whose value is a dict (`'address' in data` then `address.get(...)` raise
there, caught by the bare `except`), and on the no-`'address'`-key
fall-through, which has no explicit `return`.  `some entries` models a
returned dict; non-string input returns the empty dict (`some []`). -/
def parse_address (v : PyVal) : Option (List (String × PyVal)) :=
  match v with
  | .str s =>
    match literalEval (repairAddr s) with
    | some (.dict entries) =>
      match dictLookup entries "address" with
      | some (.dict a) =>
        some [("street", dictGet a "streeet" (.str "")),
              ("city", dictGet a "city" (.str "")),
              ("post_code", .str (pyStr (dictGet a "post code" (.str "")))),
              ("country", dictGet a "country" (.str ""))]
      | some _ => Option.none
      | Option.none => Option.none
    | some _ => Option.none
    | Option.none => Option.none
  | _ => some []

/-- The character-level rendering of the documented malformed address
shape `{'address': {'streeet': S, 'city': C, 'post code': P,
'country': K}}` with given field contents. -/
def renderAddrMid (street city post country : List Char) : List Char :=
  '\'' :: "address".data ++ ['\'', ':', ' ', '\x7b', '\''] ++ "streeet".data ++
    ['\'', ':', ' ', '\''] ++ street ++ ['\'', ',', ' ', '\''] ++ "city".data ++
    ['\'', ':', ' ', '\''] ++ city ++ ['\'', ',', ' ', '\''] ++ "post code".data ++
    ['\'', ':', ' ', '\''] ++ post ++ ['\'', ',', ' ', '\''] ++ "country".data ++
    ['\'', ':', ' ', '\''] ++ country ++ ['\'', '\x7d']

/-- The full rendering: an opening brace, the body, a closing brace. -/
def renderAddrChars (street city post country : List Char) : List Char :=
  '\x7b' :: (renderAddrMid street city post country ++ ['\x7d'])

/-- Characters over which the documented malformed address shape renders
and parses cleanly: ASCII letters and digits and the space. -/
def safeChar (c : Char) : Bool := c.isAlphanum ∨ c = ' '

example : parse_address (.str (String.mk (renderAddrChars
    "123 Main St".data "Anytown".data "12345".data "USA".data))) =
    some [("street", .str "123 Main St"), ("city", .str "Anytown"),
          ("post_code", .str "12345"), ("country", .str "USA")] := rfl

example : parse_address (.str (String.mk (renderAddrChars
    "12-34 Main St".data "Anytown".data "12345".data "USA".data))) = Option.none := rfl

example : parse_address (.str "not a dict") = Option.none := rfl

example : parse_address (.int 3) = some [] := rfl

example : parse_address (.str (String.mk (['\x7b', '\''] ++ "a".data ++ ['\'', ':', ' ', '1', '\x7d']))) =
    Option.none := rfl

/-! ## Tolerant List Parser (`DataTransformer._parse_transactions`,
src/transformer.py:69-87) -/

/-- Regex word-character test (`\w`) for the `\b` boundary in the
`None`/`Null` substitution pattern (ASCII fragment). -/
def wordChar (c : Char) : Bool := c.isAlphanum ∨ c = '_'

/-- The alternatives of `("None"|"Null"|None|Null)`, in the pattern's
order, as they appear after the single-quote → double-quote replacement. -/
def noneToks : List (List Char) :=
  [['"', 'N', 'o', 'n', 'e', '"'], ['"', 'N', 'u', 'l', 'l', '"'],
   ['N', 'o', 'n', 'e'], ['N', 'u', 'l', 'l']]

/-- `\b` after a matched token: exactly one of (last token char, next
input char) is a word character; end of input counts as non-word. -/
def tokBoundary (tok rest : List Char) : Bool :=
  let lw := match tok.getLast? with | some c => wordChar c | Option.none => false
  let rw := match rest.head? with | some c => wordChar c | Option.none => false
  lw ≠ rw

/-- Try the pattern alternatives in order at the current position,
moving to the next alternative when the characters match but the `\b`
boundary fails, as regex backtracking does. -/
def tryNoneToks : List (List Char) → List Char → Option (List Char)
  | [], _ => Option.none
  | t :: ts, cs =>
    if t.isPrefixOf cs then
      let rest := cs.drop t.length
      if tokBoundary t rest then some rest else tryNoneToks ts cs
    else tryNoneToks ts cs

/-- `re.sub(r':\s*("None"|"Null"|None|Null)\b', ': null', s)`
(src/transformer.py:81): scan for `:`, skip whitespace, try the
alternatives, and replace the whole match with `: null`, resuming after
the match. -/
def noneSub : Nat → List Char → List Char
  | 0, cs => cs
  | _+1, [] => []
  | fuel+1, ':' :: r =>
    match tryNoneToks noneToks (r.dropWhile pyWs) with
    | some rest => ':' :: ' ' :: 'n' :: 'u' :: 'l' :: 'l' :: noneSub fuel rest
    | Option.none => ':' :: noneSub fuel r
  | fuel+1, c :: r => c :: noneSub fuel r

/-- Negation of a parsed JSON number. -/
def pyNegNum : PyVal → PyVal
  | .int n => .int (-n)
  | .float q => .float (-q)
  | v => v

/-- A JSON number: digits without a spurious leading zero, with an
optional fraction.  Exponents are not modelled (no input of the
repository carries one); an exponent suffix makes the surrounding parse
fail rather than succeed. -/
def parseJsonNum (cs : List Char) : Option (PyVal × List Char) :=
  let d1 := cs.takeWhile Char.isDigit
  let r1 := cs.dropWhile Char.isDigit
  if d1.isEmpty then Option.none
  else if d1.length > 1 ∧ d1.head? = some '0' then Option.none
  else
    match r1 with
    | '.' :: r2 =>
      let d2 := r2.takeWhile Char.isDigit
      if d2.isEmpty then Option.none
      else some (.float (mkRat (digitsVal d1 * 10 ^ d2.length + digitsVal d2) (10 ^ d2.length)),
        r2.dropWhile Char.isDigit)
    | _ => some (.int (digitsVal d1), r1)

mutual

/-- Fragment of strict `json.loads` exercised by the repository:
objects, arrays, double-quoted strings without escape sequences,
numbers, `true`/`false`/`null`.  Escape sequences and exponents are
unmodelled and fail. Fuel-indexed; `length + 2` fuel suffices. -/
def parseJson : Nat → List Char → Option (PyVal × List Char)
  | 0, _ => Option.none
  | fuel+1, cs =>
    match cs.dropWhile pyWs with
    | '"' :: r =>
      let body := r.takeWhile (fun c => c ≠ '"' ∧ c ≠ '\\')
      match r.dropWhile (fun c => c ≠ '"' ∧ c ≠ '\\') with
      | '"' :: r2 => some (.str (String.mk body), r2)
      | _ => Option.none
    | '\x7b' :: r =>
      match r.dropWhile pyWs with
      | '\x7d' :: r2 => some (.dict [], r2)
      | _ => (parseJsonMembers fuel [] r).map (fun p => (.dict p.1, p.2))
    | '[' :: r =>
      match r.dropWhile pyWs with
      | ']' :: r2 => some (.list [], r2)
      | _ => (parseJsonItems fuel [] r).map (fun p => (.list p.1, p.2))
    | 't' :: 'r' :: 'u' :: 'e' :: r => some (.bool true, r)
    | 'f' :: 'a' :: 'l' :: 's' :: 'e' :: r => some (.bool false, r)
    | 'n' :: 'u' :: 'l' :: 'l' :: r => some (.none, r)
    | '-' :: r => (parseJsonNum r).map (fun p => (pyNegNum p.1, p.2))
    | c :: r => if c.isDigit then parseJsonNum (c :: r) else Option.none
    | [] => Option.none

/-- Comma-separated JSON array items up to `]`. -/
def parseJsonItems : Nat → List PyVal → List Char → Option (List PyVal × List Char)
  | 0, _, _ => Option.none
  | fuel+1, acc, cs =>
    match parseJson fuel cs with
    | some (v, r1) =>
      match r1.dropWhile pyWs with
      | ',' :: r2 => parseJsonItems fuel (acc ++ [v]) r2
      | ']' :: r2 => some (acc ++ [v], r2)
      | _ => Option.none
    | Option.none => Option.none

/-- Comma-separated JSON object members up to the closing brace; keys
must be strings, later duplicates overwrite. -/
def parseJsonMembers : Nat → List (String × PyVal) → List Char →
    Option (List (String × PyVal) × List Char)
  | 0, _, _ => Option.none
  | fuel+1, acc, cs =>
    match parseJson fuel cs with
    | some (.str k, r1) =>
      match r1.dropWhile pyWs with
      | ':' :: r2 =>
        match parseJson fuel r2 with
        | some (v, r3) =>
          match r3.dropWhile pyWs with
          | ',' :: r4 => parseJsonMembers fuel (insertKV acc k v) r4
          | '\x7d' :: r4 => some (insertKV acc k v, r4)
          | _ => Option.none
        | Option.none => Option.none
      | _ => Option.none
    | _ => Option.none

end

/-- `json.loads` on a whole string: one JSON value, then at most
trailing whitespace. -/
def jsonLoads (cs : List Char) : Option PyVal :=
  match parseJson (cs.length + 2) cs with
  | some (v, rest) => if rest.dropWhile pyWs = [] then some v else Option.none
  | Option.none => Option.none

/-- The cleaning pipeline of `_parse_transactions`
(src/transformer.py:79-83): single quotes to double quotes, the
`None`/`Null` substitution, then `strip()`. -/
def cleanTx (s : String) : List Char :=
  let c1 := s.data.map (fun c => if c = '\'' then '"' else c)
  pyStrip (noneSub c1.length c1)

/-- `DataTransformer._parse_transactions` (src/transformer.py:69-87),
returning the parsed value together with whether a warning was logged.
Non-string input logs and returns the empty list; otherwise the cleaned
string is fed to strict `json.loads`, whose failure logs and yields the
empty list.  A successful parse returns the parsed JSON value
unchanged, whatever its shape. -/
def parse_transactions_full (v : PyVal) : PyVal × Bool :=
  match v with
  | .str s =>
    match jsonLoads (cleanTx s) with
    | some j => (j, false)
    | Option.none => (.list [], true)
  | _ => (.list [], true)

/-- The value result of `_parse_transactions`. -/
def parse_transactions (v : PyVal) : PyVal := (parse_transactions_full v).1

example : parse_transactions (.str "5") = .int 5 := rfl
example : parse_transactions (.str "[]") = .list [] := rfl
example : parse_transactions (.str "not json") = .list [] := rfl
example : parse_transactions (.int 7) = .list [] := rfl
example : parse_transactions (.str (String.mk
    ('[' :: '\x7b' :: '\'' :: ("id".data ++ ['\'', ':', ' ', '\''] ++ "T1".data ++
      ['\'', ',', ' ', '\''] ++ "amount".data ++ ['\'', ':', ' ', '\''] ++ "€100,50".data ++
      ['\'', '\x7d', ']'])))) =
    .list [.dict [("id", .str "T1"), ("amount", .str "€100,50")]] := rfl
example : parse_transactions (.str (String.mk
    ('[' :: '\x7b' :: '\'' :: ("amount".data ++ ['\'', ':', ' ', '5', '\x7d', ']'])))) =
    .list [.dict [("amount", .int 5)]] := rfl
example : parse_transactions (.str (String.mk
    ('[' :: '\x7b' :: '\'' :: ("a".data ++ ['\'', ':', ' '] ++ "None".data ++ ['\x7d', ']'])))) =
    .list [.dict [("a", .none)]] := rfl

/-! ## Date parsing (`pd.to_datetime(..., errors='coerce',
format='%Y-%m-%d %H:%M:%S.%f')`, src/transformer.py:162-170) -/

/-- A parsed datetime value. -/
structure PyDateTime where
  year : Nat
  month : Nat
  day : Nat
  hour : Nat
  minute : Nat
  second : Nat
  usec : Nat
deriving DecidableEq, Repr, Inhabited

/-- Gregorian leap-year rule used by `datetime`'s calendar validation. -/
def isLeapYear (y : Nat) : Bool := (y % 4 = 0 ∧ y % 100 ≠ 0) ∨ y % 400 = 0

/-- Days in a month, as validated by the `datetime` constructor. -/
def daysInMonth (y m : Nat) : Nat :=
  if m = 2 then (if isLeapYear y then 29 else 28)
  else if m = 4 ∨ m = 6 ∨ m = 9 ∨ m = 11 then 30 else 31

/-- A `strptime` numeric directive: a nonempty greedy digit run of at
most `maxLen` digits (a longer run makes the whole parse fail, since the
following literal cannot match a digit). -/
def takeDigitsUpTo (maxLen : Nat) (cs : List Char) : Option (Nat × List Char) :=
  let ds := cs.takeWhile Char.isDigit
  if ds.isEmpty ∨ ds.length > maxLen then Option.none
  else some (digitsVal ds, cs.dropWhile Char.isDigit)

/-- A literal character of the `strptime` format. -/
def expectChar (c : Char) (cs : List Char) : Option (List Char) :=
  match cs with
  | c' :: r => if c' = c then some r else Option.none
  | [] => Option.none

/-- `datetime.strptime(s, '%Y-%m-%d %H:%M:%S.%f')` together with the
constructor's range and calendar validation; any failure is `none`
(which `errors='coerce'` turns into `NaT`). -/
def strptimeDT (s : String) : Option PyDateTime := do
  let (y, r1) ← takeDigitsUpTo 4 s.data
  let r2 ← expectChar '-' r1
  let (mo, r3) ← takeDigitsUpTo 2 r2
  let r4 ← expectChar '-' r3
  let (d, r5) ← takeDigitsUpTo 2 r4
  let r6 ← expectChar ' ' r5
  let (h, r7) ← takeDigitsUpTo 2 r6
  let r8 ← expectChar ':' r7
  let (mi, r9) ← takeDigitsUpTo 2 r8
  let r10 ← expectChar ':' r9
  let (se, r11) ← takeDigitsUpTo 2 r10
  let r12 ← expectChar '.' r11
  let fs := r12.takeWhile Char.isDigit
  if fs.isEmpty ∨ fs.length > 6 then Option.none
  else if r12.dropWhile Char.isDigit ≠ [] then Option.none
  else if 1 ≤ y ∧ y ≤ 9999 ∧ 1 ≤ mo ∧ mo ≤ 12 ∧ 1 ≤ d ∧ d ≤ daysInMonth y mo ∧
      h ≤ 23 ∧ mi ≤ 59 ∧ se ≤ 59 then
    some ⟨y, mo, d, h, mi, se, digitsVal fs * 10 ^ (6 - fs.length)⟩
  else Option.none

/-- Per-cell behaviour of `pd.to_datetime(col, errors='coerce',
format=...)`: strings are parsed against the format, anything else
coerces to `NaT` (`none`). -/
def parseDateVal (v : PyVal) : Option PyDateTime :=
  match v with
  | .str s => strptimeDT s
  | _ => Option.none

example : parseDateVal (.str "2023-01-01 10:00:00.123456") =
    some ⟨2023, 1, 1, 10, 0, 0, 123456⟩ := rfl
example : parseDateVal (.str "2023-01-01") = Option.none := rfl
example : parseDateVal (.str "2023-02-30 10:00:00.123456") = Option.none := rfl
example : parseDateVal (.str "2023-01-01 10:00:00.5") =
    some ⟨2023, 1, 1, 10, 0, 0, 500000⟩ := rfl
example : parseDateVal .none = Option.none := rfl

/-! ## Record Transformer (`DataTransformer.transform_data`,
src/transformer.py:124-196) -/

/-- A pandas DataFrame: column names in order, and rows of values
aligned with the columns. -/
structure Df where
  cols : List String
  data : List (List PyVal)

/-- The values of column `c` (empty when the column is absent;
`transform_data` only uses this under a presence check or after
`getCol` succeeded). -/
def colValuesD (df : Df) (c : String) : List PyVal :=
  if c ∈ df.cols then
    df.data.map (fun r => r.getD (df.cols.findIdx (fun x => x == c)) PyVal.none)
  else []

/-- `df[c]`: the column's values, or a `KeyError` when absent. -/
def getCol (df : Df) (c : String) : Except String (List PyVal) :=
  if c ∈ df.cols then .ok (colValuesD df c)
  else .error ("KeyError: " ++ c)

/-- One output row of the transformer, in the fixed column order of
`final_columns_order` (src/transformer.py:180-190). -/
structure OutputRow where
  names : PyVal
  email : PyVal
  address_street : PyVal
  address_city : PyVal
  address_post_code : PyVal
  address_country : PyVal
  account_created_at : Option PyDateTime
  num_transactions : Nat
  total_transaction_amount : ℚ
deriving Inhabited

/-- `x.get(field)` on a `_parse_address` result (src/transformer.py:141-144):
an `AttributeError` when the parse returned `None`, else the dict's
value (or `None` when the key is absent). -/
def addrField (x : Option (List (String × PyVal))) (k : String) : Except String PyVal :=
  match x with
  | Option.none => .error "AttributeError: NoneType object has no attribute get"
  | some d => .ok (dictGetOpt d k)

/-- Python `len()` as applied to a `_parse_transactions` result
(src/transformer.py:151): sized for lists, strings and dicts, a
`TypeError` otherwise. -/
def pyLen : PyVal → Except String Nat
  | .list l => .ok l.length
  | .str s => .ok s.length
  | .dict l => .ok l.length
  | _ => .error "TypeError: object has no len"

/-- Python iteration as applied by `calculate_total_amount`
(src/transformer.py:155): list elements, characters of a string, keys
of a dict; a `TypeError` otherwise. -/
def pyIter : PyVal → Except String (List PyVal)
  | .list l => .ok l
  | .str s => .ok (s.data.map (fun c => .str (String.mk [c])))
  | .dict l => .ok (l.map (fun p => .str p.1))
  | _ => .error "TypeError: not iterable"

/-- `str(tx.get('amount', '€0,00'))` fed to `_parse_currency_amount`
(src/transformer.py:156-157); `tx.get` raises on a non-dict element. -/
def txAmount (tx : PyVal) : Except String ℚ :=
  match tx with
  | .dict d => .ok (parse_currency (.str (pyStr (dictGet d "amount" (.str "€0,00")))))
  | _ => .error "AttributeError: object has no attribute get"

/-- The accumulation loop of `calculate_total_amount`
(src/transformer.py:154-157): `total += parsed amount`, left to right,
propagating the first raised error. -/
def sumAmounts : List PyVal → ℚ → Except String ℚ
  | [], acc => .ok acc
  | tx :: rest, acc =>
    match txAmount tx with
    | .error e => .error e
    | .ok a => sumAmounts rest (acc + a)

/-- `calculate_total_amount` (src/transformer.py:153-158). -/
def calcTotal (v : PyVal) : Except String ℚ :=
  match pyIter v with
  | .error e => .error e
  | .ok items => sumAmounts items 0

/-- `pd.Series.apply` over a column with a fallible per-cell function:
the cells in order, stopping at the first raised error. -/
def mapE {α β : Type} (f : α → Except String β) : List α → Except String (List β)
  | [] => .ok []
  | x :: xs =>
    match f x with
    | .error e => .error e
    | .ok y =>
      match mapE f xs with
      | .error e => .error e
      | .ok ys => .ok (y :: ys)

/-- The date-column step (src/transformer.py:162-170): prefer
`account_created_at`, fall back to `account_created_at_1`, else `NaT`
for all `n` rows. -/
def transformDates (df : Df) (n : Nat) : List (Option PyDateTime) :=
  if "account_created_at" ∈ df.cols then
    (colValuesD df "account_created_at").map parseDateVal
  else if "account_created_at_1" ∈ df.cols then
    (colValuesD df "account_created_at_1").map parseDateVal
  else List.replicate n Option.none

/-- `DataTransformer.transform_data` (src/transformer.py:124-196), at
the granularity of whole columns, in the source's evaluation order.
A raised Python exception is an `Except.error`; the output rows carry
the fields of `final_columns_order`. -/
def transform_data (df : Df) : Except String (List OutputRow) := do
  let names ← getCol df "names"
  let emails ← getCol df "mail"
  let addrRaw ← getCol df "address"
  let addrParsed := addrRaw.map parse_address
  let streets ← mapE (fun x => addrField x "street") addrParsed
  let cities ← mapE (fun x => addrField x "city") addrParsed
  let posts ← mapE (fun x => addrField x "post_code") addrParsed
  let countries ← mapE (fun x => addrField x "country") addrParsed
  let txRaw ← getCol df "transactions"
  let txParsed := txRaw.map parse_transactions
  let numTx ← mapE pyLen txParsed
  let totals ← mapE calcTotal txParsed
  pure ((List.range names.length).map (fun i =>
    ⟨names.getD i .none, emails.getD i .none, streets.getD i .none, cities.getD i .none,
     posts.getD i .none, countries.getD i .none,
     (transformDates df names.length).getD i Option.none,
     numTx.getD i 0, totals.getD i 0⟩))

/-- The good-shape address string of the repository's test fixture. -/
def addrOkStr : String :=
  String.mk (renderAddrChars "123 Main St".data "Anytown".data "12345".data "USA".data)

example : transform_data
    ⟨["names", "mail", "address", "transactions"],
     [[.str "A", .str "a@b", .str addrOkStr, .str "[]"]]⟩ =
    .ok [⟨.str "A", .str "a@b", .str "123 Main St", .str "Anytown", .str "12345",
          .str "USA", Option.none, 0, 0⟩] := rfl

example : transform_data
    ⟨["names", "mail", "address", "transactions", "account_created_at"],
     [[.str "A", .str "a@b", .str addrOkStr, .str "[]", .str "2023-01-01 10:00:00.123456"]]⟩ =
    .ok [⟨.str "A", .str "a@b", .str "123 Main St", .str "Anytown", .str "12345",
          .str "USA", some ⟨2023, 1, 1, 10, 0, 0, 123456⟩, 0, 0⟩] := rfl

example : transform_data
    ⟨["names", "mail", "address", "transactions"],
     [[.str "A", .str "a@b", .str "not a dict", .str "[]"]]⟩ =
    .error "AttributeError: NoneType object has no attribute get" := rfl

example : transform_data ⟨["names"], [[.str "A"]]⟩ = .error "KeyError: mail" := rfl

/-! ## Supporting lemmas for the currency parser -/

theorem splitDots_ne_nil : ∀ cs : List Char, splitDots cs ≠ [] := by
  intro cs
  induction cs with
  | nil => simp [splitDots]
  | cons c r ih =>
    by_cases hc : c = '.'
    · simp [splitDots, hc]
    · cases hr : splitDots r with
      | nil => exact absurd hr ih
      | cons p ps => simp [splitDots, hc, hr]

theorem floatOfClean_all_dots (cs : List Char) (h : ∀ c ∈ cs, c = '.') :
    floatOfClean cs = Option.none := by
  cases cs with
  | nil => rfl
  | cons c r =>
    have hc : c = '.' := h c (by simp)
    subst hc
    cases r with
    | nil => rfl
    | cons c2 r2 =>
      have hc2 : c2 = '.' := h c2 (by simp)
      subst hc2
      cases hr : splitDots r2 with
      | nil => exact absurd hr (splitDots_ne_nil r2)
      | cons p ps => simp [floatOfClean, splitDots, hr]

theorem floatOfClean_nonneg (cs : List Char) (q : ℚ)
    (h : floatOfClean cs = some q) : 0 ≤ q := by
  unfold floatOfClean at h
  cases hs : splitDots cs with
  | nil => rw [hs] at h; simp at h
  | cons a ps =>
    cases ps with
    | nil =>
      rw [hs] at h
      by_cases ha : a = []
      · simp [ha] at h
      · simp [ha] at h
        rw [← h]
        positivity
    | cons b ps2 =>
      cases ps2 with
      | nil =>
        rw [hs] at h
        by_cases hab : a = [] ∧ b = []
        · simp [hab] at h
        · simp [hab] at h
          rw [← h, Rat.mkRat_eq_div]
          positivity

      | cons x xs => rw [hs] at h; simp at h

/-- No-digit predicate used by the unparseable-text case of C4. -/
def noDigit (cs : List Char) : Prop := ∀ c ∈ cs, c.isDigit = false

theorem noDigit_filter (p : Char → Bool) (cs : List Char) (h : noDigit cs) :
    noDigit (cs.filter p) :=
  fun c hc => h c (List.mem_of_mem_filter hc)

theorem noDigit_mapSwap (cs : List Char) (h : noDigit cs) :
    noDigit (cs.map (fun c => if c = ',' then '.' else c)) := by
  intro c hc
  obtain ⟨c', hc', rfl⟩ := List.mem_map.mp hc
  by_cases h' : c' = ','
  · simp [h']
  · simp only [h', if_false]
    exact h c' hc'

theorem stripCurrencySyms_noDigit (cs : List Char) (h : noDigit cs) :
    noDigit (stripCurrencySyms cs) :=
  noDigit_filter _ cs h

theorem resolveSeps_noDigit (cs : List Char) (h : noDigit cs) :
    noDigit (resolveSeps cs) := by
  unfold resolveSeps
  split
  · exact noDigit_mapSwap _ (noDigit_filter _ _ h)
  · split
    · split
      · split
        · exact noDigit_mapSwap _ h
        · exact noDigit_filter _ _ h
      · exact noDigit_filter _ _ h
    · exact h

theorem keepDigitsDots_all_dots (cs : List Char) (h : noDigit cs) :
    ∀ c ∈ keepDigitsDots cs, c = '.' := by
  intro c hc
  have h1 := List.of_mem_filter hc
  have h2 := List.mem_of_mem_filter hc
  have h3 := h c h2
  simp at h1
  rcases h1 with h1 | h1
  · rw [h1] at h3; simp at h3
  · exact h1

/-- C4: The Currency Amount Parser satisfies the documented cases:
`$50.25 → 50.25`, `€100,50 → 100.50`, `£200.00 → 200.00`,
`¥5000 → 5000.0`; a string containing no digits parses to `0.0` with a
warning logged; non-string input yields `0.0` without logging. -/
theorem C4_currency_documented_cases :
    parse_currency_full (.str "$50.25") = (50.25, false) ∧
    parse_currency_full (.str "€100,50") = (100.50, false) ∧
    parse_currency_full (.str "£200.00") = (200.00, false) ∧
    parse_currency_full (.str "¥5000") = (5000, false) ∧
    (∀ s : String, (∀ c ∈ s.data, c.isDigit = false) →
      parse_currency_full (.str s) = (0, true)) ∧
    (∀ v : PyVal, (∀ s, v ≠ .str s) → parse_currency_full v = (0, false)) := by
  refine ⟨?_, ?_, ?_, ?_, ?_, ?_⟩
  · rw [show parse_currency_full (.str "$50.25") = (mkRat 5025 100, false) from rfl]
    simp only [Prod.mk.injEq]
    exact ⟨by rw [Rat.mkRat_eq_div]; norm_num, trivial⟩
  · rw [show parse_currency_full (.str "€100,50") = (mkRat 10050 100, false) from rfl]
    simp only [Prod.mk.injEq]
    exact ⟨by rw [Rat.mkRat_eq_div]; norm_num, trivial⟩
  · rw [show parse_currency_full (.str "£200.00") = (mkRat 20000 100, false) from rfl]
    simp only [Prod.mk.injEq]
    exact ⟨by rw [Rat.mkRat_eq_div]; norm_num, trivial⟩
  · rw [show parse_currency_full (.str "¥5000") = (mkRat 5000 1, false) from rfl]
    simp only [Prod.mk.injEq]
    exact ⟨by rw [Rat.mkRat_eq_div]; norm_num, trivial⟩
  · intro s h
    have hd := keepDigitsDots_all_dots _ (resolveSeps_noDigit _ (stripCurrencySyms_noDigit _ h))
    have hn := floatOfClean_all_dots _ hd
    simp [parse_currency_full, hn]
  · intro v h
    cases v with
    | str s => exact absurd rfl (h s)
    | int _ => rfl
    | float _ => rfl
    | bool _ => rfl
    | none => rfl
    | list _ => rfl
    | dict _ => rfl

/-- Witness for C4: a digit-free string parses to `0.0` with a warning,
a non-string parses to `0.0` without one. -/
theorem C4_witness :
    parse_currency_full (.str "n/a") = (0, true) ∧
    parse_currency_full (.bool true) = (0, false) :=
  ⟨C4_currency_documented_cases.2.2.2.2.1 "n/a" (by decide),
   C4_currency_documented_cases.2.2.2.2.2 (.bool true) (fun _ h => PyVal.noConfusion h)⟩

/-- C9: The Currency Amount Parser returns a non-negative value on every
input whatsoever, string or not: the cleaning keeps only digits and
dots, so no sign can survive. -/
theorem C9_currency_nonneg : ∀ v : PyVal, 0 ≤ parse_currency v := by
  intro v
  cases v with
  | str s =>
    unfold parse_currency parse_currency_full
    cases hf : floatOfClean (keepDigitsDots (resolveSeps (stripCurrencySyms s.data))) with
    | none => simp [hf]
    | some q =>
      simp [hf]
      exact floatOfClean_nonneg _ q hf
  | int _ => exact le_refl 0
  | float _ => exact le_refl 0
  | bool _ => exact le_refl 0
  | none => exact le_refl 0
  | list _ => exact le_refl 0
  | dict _ => exact le_refl 0

/-- Whether a Python value is a list. -/
def PyVal.isList : PyVal → Bool
  | .list _ => true
  | _ => false

/-- C3: the Header Normalizer emits one canonical name per raw header
(same length), never emits a duplicate, leaves a non-colliding cleaned
name unchanged, and on collision appends the smallest numeric suffix
`_k` (k ≥ 1) that is not among the already-emitted names. -/
theorem C3_header_normalizer :
    ∀ cols : List String,
      (clean_columns cols).length = cols.length ∧
      (clean_columns cols).Nodup ∧
      (∀ seen c, cleanCol c ∉ seen → normStep seen c = cleanCol c) ∧
      (∀ seen c, cleanCol c ∈ seen →
        ∃ k, 1 ≤ k ∧ normStep seen c = candName (cleanCol c) k ∧
          candName (cleanCol c) k ∉ seen ∧
          ∀ j, 1 ≤ j → j < k → candName (cleanCol c) j ∈ seen) := by
  intro cols
  refine ⟨normalizeAux_length cols [], normalizeAux_nodup cols [], ?_, ?_⟩
  · intro seen c hc
    simp [normStep, hc]
  · intro seen c hc
    obtain ⟨j, h1, h2, h3⟩ := exists_free_suffix (cleanCol c) seen 1
    obtain ⟨m, hm1, hm2, hm3, hm4⟩ :=
      pickSuffix_eq (cleanCol c) seen seen.length 1 ⟨j, h1, by omega, h3⟩
    refine ⟨m, hm1, ?_, hm3, hm4⟩
    simp [normStep, hc, hm2]

/-- Witness for C3: concrete header sequences exercising the
non-colliding and colliding branches. -/
theorem C3_witness :
    clean_columns ["a", "A", "a_1", "a"] = ["a", "a_1", "a_1_1", "a_2"] ∧
    normStep ["b"] "Q" = cleanCol "Q" ∧
    (∃ k, 1 ≤ k ∧ normStep ["a"] " A " = candName (cleanCol " A ") k ∧
      candName (cleanCol " A ") k ∉ ["a"] ∧
      ∀ j, 1 ≤ j → j < k → candName (cleanCol " A ") j ∈ ["a"]) :=
  ⟨by decide,
   (C3_header_normalizer []).2.2.1 ["b"] "Q" (by decide),
   (C3_header_normalizer []).2.2.2 ["a"] " A " (by decide)⟩

/-- C5 counterexample: on the input string `"5"` the Tolerant List
Parser returns the JSON number `5`, which is not a sequence, refuting
"for every input the parser returns an ordered sequence". -/
theorem C5_counterexample :
    parse_transactions (.str "5") = .int 5 ∧ (PyVal.int 5).isList = false :=
  ⟨rfl, rfl⟩

/-- C5 (amended): the Tolerant List Parser never raises (it is a total
function): non-string input yields the empty sequence with a warning,
a cleaned string that fails strict JSON parsing yields the empty
sequence with a warning, and a successful parse returns the parsed JSON
value itself, which is a sequence only when the JSON was an array. -/
theorem C5_tolerant_list_behaviour :
    (∀ v : PyVal, (∀ s, v ≠ .str s) → parse_transactions_full v = (.list [], true)) ∧
    (∀ s : String, jsonLoads (cleanTx s) = Option.none →
      parse_transactions_full (.str s) = (.list [], true)) ∧
    (∀ s j, jsonLoads (cleanTx s) = some j → parse_transactions_full (.str s) = (j, false)) := by
  refine ⟨?_, ?_, ?_⟩
  · intro v h
    cases v with
    | str s => exact absurd rfl (h s)
    | int _ => rfl
    | float _ => rfl
    | bool _ => rfl
    | none => rfl
    | list _ => rfl
    | dict _ => rfl
  · intro s h
    simp [parse_transactions_full, h]
  · intro s j h
    simp [parse_transactions_full, h]

/-- Witness for C5: a non-JSON string yields the empty list with a
warning; `[]` parses to the empty list without one. -/
theorem C5_witness :
    parse_transactions_full (.str "oops") = (.list [], true) ∧
    parse_transactions_full (.str "[]") = (.list [], false) :=
  ⟨C5_tolerant_list_behaviour.2.1 "oops" rfl,
   C5_tolerant_list_behaviour.2.2 "[]" (.list []) rfl⟩

/-- The address string `{'a': 1}`: parses cleanly but lacks the
top-level key `address`. -/
def addrNoKeyStr : String :=
  String.mk (['\x7b', '\''] ++ "a".data ++ ['\'', ':', ' ', '1', '\x7d'])

/-- C8 counterexample: on a string parsing to a mapping without the key
`address`, `_parse_address` returns Python `None` (modelled
`Option.none`), not the empty AddressRecord `some []` that non-string
input gets — the two results differ. -/
theorem C8_counterexample :
    parse_address (.str addrNoKeyStr) = Option.none ∧
    parse_address (.int 0) = some [] ∧
    (Option.none : Option (List (String × PyVal))) ≠ some [] :=
  ⟨rfl, rfl, by simp⟩

/-- C8 (amended): for every string whose repaired form parses as a
mapping lacking the key `address`, `_parse_address` falls off the end
and returns Python `None` — a value distinct from the empty
AddressRecord returned for non-string input. -/
theorem C8_missing_address_key :
    (∀ s entries, literalEval (repairAddr s) = some (.dict entries) →
      dictLookup entries "address" = Option.none →
      parse_address (.str s) = Option.none) ∧
    (∀ v : PyVal, (∀ s, v ≠ .str s) → parse_address v = some []) ∧
    (Option.none : Option (List (String × PyVal))) ≠ some [] := by
  refine ⟨?_, ?_, by simp⟩
  · intro s entries h1 h2
    simp [parse_address, h1, h2]
  · intro v h
    cases v with
    | str s => exact absurd rfl (h s)
    | int _ => rfl
    | float _ => rfl
    | bool _ => rfl
    | none => rfl
    | list _ => rfl
    | dict _ => rfl

/-- Witness for C8: the concrete mapping `{'a': 1}` without an
`address` key yields `None`; a non-string yields the empty record. -/
theorem C8_witness :
    parse_address (.str addrNoKeyStr) = Option.none ∧
    parse_address (.bool false) = some [] :=
  ⟨C8_missing_address_key.1 addrNoKeyStr [("a", .int 1)] rfl rfl,
   C8_missing_address_key.2.1 (.bool false) (fun _ h => PyVal.noConfusion h)⟩

/-- A one-row DataFrame whose address field is unparseable. -/
def dfC1 : Df :=
  ⟨["names", "mail", "address", "transactions"],
   [[.str "John", .str "j@x", .str "not a dict", .str "[]"]]⟩

/-- C1 (code bug): on an unparseable address string `_parse_address`
returns Python `None` rather than a sentinel treated as absent values,
and `transform_data` then raises `AttributeError` on `None.get('street')`,
aborting the whole batch — contradicting the spec's absorb-row-failures
policy and the parser's own dead `except json.JSONDecodeError` handler,
which returns the empty dict. -/
theorem C1_malformed_address_aborts :
    parse_address (.str "not a dict") = Option.none ∧
    transform_data dfC1 = .error "AttributeError: NoneType object has no attribute get" :=
  ⟨rfl, rfl⟩

/-! ## Supporting lemmas for the Record Transformer -/

theorem bind_eq_ok {α β : Type} {e : Except String α} {f : α → Except String β} {b : β}
    (h : (e >>= f) = .ok b) : ∃ a, e = .ok a ∧ f a = .ok b := by
  cases e with
  | error err => exact absurd h (by simp [Bind.bind, Except.bind])
  | ok a => exact ⟨a, rfl, h⟩

theorem mapE_ok_length {α β : Type} (f : α → Except String β) :
    ∀ xs ys, mapE f xs = .ok ys → ys.length = xs.length := by
  intro xs
  induction xs with
  | nil =>
    intro ys h
    simp [mapE] at h
    rw [h]
    rfl
  | cons x xs ih =>
    intro ys h
    unfold mapE at h
    cases hf : f x <;> rw [hf] at h
    · exact absurd h (by simp)
    · cases hm : mapE f xs <;> rw [hm] at h
      · exact absurd h (by simp)
      · simp at h
        rw [← h]
        simp [ih _ hm]

theorem mapE_ok_getD {α β : Type} (f : α → Except String β) :
    ∀ xs ys, mapE f xs = .ok ys → ∀ i, i < xs.length → ∀ (d : α) (d' : β),
      f (xs.getD i d) = .ok (ys.getD i d') := by
  intro xs
  induction xs with
  | nil =>
    intro ys h i hi
    simp at hi
  | cons x xs ih =>
    intro ys h i hi d d'
    unfold mapE at h
    cases hf : f x <;> rw [hf] at h
    · exact absurd h (by simp)
    · cases hm : mapE f xs <;> rw [hm] at h
      · exact absurd h (by simp)
      · simp at h
        rw [← h]
        cases i with
        | zero => simpa [List.getD] using hf
        | succ i' => exact ih _ hm i' (by simpa using hi) d d'

theorem getCol_ok_mem (df : Df) (c : String) (l : List PyVal)
    (h : getCol df c = .ok l) : c ∈ df.cols := by
  unfold getCol at h
  by_cases hc : c ∈ df.cols
  · exact hc
  · rw [if_neg hc] at h
    exact absurd h (by simp)

theorem getCol_ok_val (df : Df) (c : String) (l : List PyVal)
    (h : getCol df c = .ok l) : l = colValuesD df c := by
  unfold getCol at h
  by_cases hc : c ∈ df.cols
  · rw [if_pos hc] at h
    injection h with h
    exact h.symm
  · rw [if_neg hc] at h
    exact absurd h (by simp)

theorem map_getD_lt {α β : Type} (f : α → β) (l : List α) (i : Nat) (d : α) (d' : β)
    (h : i < l.length) : (l.map f).getD i d' = f (l.getD i d) := by
  induction l generalizing i with
  | nil => simp at h
  | cons x xs ih =>
    cases i with
    | zero => rfl
    | succ i' => simp [List.getD] at ih ⊢; exact ih i' (by simpa using h)

theorem range_map_getD {β : Type} (n i : Nat) (f : Nat → β) (d : β) (h : i < n) :
    ((List.range n).map f).getD i d = f i := by
  rw [map_getD_lt f (List.range n) i 0 d (by simpa using h)]
  congr 1
  simp [List.getD_eq_getElem?_getD, List.getElem?_range h]

theorem replicate_getD {β : Type} (n i : Nat) (d : β) :
    (List.replicate n d).getD i d = d := by
  induction n generalizing i with
  | zero => cases i <;> rfl
  | succ n ih => cases i with
    | zero => rfl
    | succ i' => exact ih i'

/-- Full inversion of a successful `transform_data`: the column fetches
and per-column maps it performed, and the shape of its output rows. -/
theorem transform_data_ok_inv (df : Df) (out : List OutputRow)
    (h : transform_data df = .ok out) :
    ∃ names emails addrRaw streets cities posts countries txRaw numTx totals,
      getCol df "names" = .ok names ∧
      getCol df "mail" = .ok emails ∧
      getCol df "address" = .ok addrRaw ∧
      mapE (fun x => addrField x "street") (addrRaw.map parse_address) = .ok streets ∧
      mapE (fun x => addrField x "city") (addrRaw.map parse_address) = .ok cities ∧
      mapE (fun x => addrField x "post_code") (addrRaw.map parse_address) = .ok posts ∧
      mapE (fun x => addrField x "country") (addrRaw.map parse_address) = .ok countries ∧
      getCol df "transactions" = .ok txRaw ∧
      mapE pyLen (txRaw.map parse_transactions) = .ok numTx ∧
      mapE calcTotal (txRaw.map parse_transactions) = .ok totals ∧
      out = (List.range names.length).map (fun i =>
        ⟨names.getD i .none, emails.getD i .none, streets.getD i .none, cities.getD i .none,
         posts.getD i .none, countries.getD i .none,
         (transformDates df names.length).getD i Option.none,
         numTx.getD i 0, totals.getD i 0⟩) := by
  unfold transform_data at h
  obtain ⟨names, hn, h⟩ := bind_eq_ok h
  obtain ⟨emails, hm, h⟩ := bind_eq_ok h
  obtain ⟨addrRaw, ha, h⟩ := bind_eq_ok h
  obtain ⟨streets, hs, h⟩ := bind_eq_ok h
  obtain ⟨cities, hc, h⟩ := bind_eq_ok h
  obtain ⟨posts, hp, h⟩ := bind_eq_ok h
  obtain ⟨countries, hco, h⟩ := bind_eq_ok h
  obtain ⟨txRaw, ht, h⟩ := bind_eq_ok h
  obtain ⟨numTx, hl, h⟩ := bind_eq_ok h
  obtain ⟨totals, hto, h⟩ := bind_eq_ok h
  refine ⟨names, emails, addrRaw, streets, cities, posts, countries, txRaw, numTx, totals,
    hn, hm, ha, hs, hc, hp, hco, ht, hl, hto, ?_⟩
  have h' : Except.ok (ε := String) ((List.range names.length).map (fun i =>
      (⟨names.getD i .none, emails.getD i .none, streets.getD i .none, cities.getD i .none,
       posts.getD i .none, countries.getD i .none,
       (transformDates df names.length).getD i Option.none,
       numTx.getD i 0, totals.getD i 0⟩ : OutputRow))) = .ok out := h
  injection h' with h''
  exact h''.symm

/-- The one-row DataFrame of the fixture shape without any
account-creation column. -/
def dfNoDate : Df :=
  ⟨["names", "mail", "address", "transactions"],
   [[.str "A", .str "a@b", .str addrOkStr, .str "[]"]]⟩

/-- The transformer's output for `dfNoDate`. -/
def outNoDate : List OutputRow :=
  [⟨.str "A", .str "a@b", .str "123 Main St", .str "Anytown", .str "12345", .str "USA",
    Option.none, 0, 0⟩]

/-- C10: when any of the canonical columns `names`, `mail`, `address`,
`transactions` is missing, the Record Transformer raises (the whole
batch aborts) instead of degrading to defaults; with all four present
a row transforms even when both account-creation columns are absent. -/
theorem C10_missing_required_columns :
    (∀ df : Df,
      ("names" ∉ df.cols ∨ "mail" ∉ df.cols ∨ "address" ∉ df.cols ∨
        "transactions" ∉ df.cols) →
      ∃ e, transform_data df = .error e) ∧
    transform_data dfNoDate = .ok outNoDate := by
  constructor
  · intro df hmiss
    cases hr : transform_data df with
    | error e => exact ⟨e, rfl⟩
    | ok out =>
      exfalso
      obtain ⟨names, emails, addrRaw, streets, cities, posts, countries, txRaw, numTx, totals,
        hn, hm, ha, _, _, _, _, ht, _, _, _⟩ := transform_data_ok_inv df out hr
      rcases hmiss with h | h | h | h
      · exact h (getCol_ok_mem df _ _ hn)
      · exact h (getCol_ok_mem df _ _ hm)
      · exact h (getCol_ok_mem df _ _ ha)
      · exact h (getCol_ok_mem df _ _ ht)
  · rfl

/-- Witness for C10: a DataFrame missing the `mail` column makes
`transform_data` raise. -/
theorem C10_witness :
    ∃ e, transform_data ⟨["names"], [[.str "A"]]⟩ = .error e :=
  C10_missing_required_columns.1 ⟨["names"], [[.str "A"]]⟩ (Or.inr (Or.inl (by decide)))

theorem transformDates_getD (df : Df) (n i : Nat) :
    (transformDates df n).getD i Option.none =
      (if "account_created_at" ∈ df.cols then
        parseDateVal ((colValuesD df "account_created_at").getD i PyVal.none)
      else if "account_created_at_1" ∈ df.cols then
        parseDateVal ((colValuesD df "account_created_at_1").getD i PyVal.none)
      else Option.none) := by
  unfold transformDates
  by_cases h1 : "account_created_at" ∈ df.cols
  · rw [if_pos h1, if_pos h1]
    by_cases hi : i < (colValuesD df "account_created_at").length
    · exact map_getD_lt _ _ _ _ _ hi
    · rw [List.getD_eq_default _ _ (by simpa using not_lt.mp hi),
        List.getD_eq_default _ _ (not_lt.mp hi)]
      rfl
  · rw [if_neg h1, if_neg h1]
    by_cases h2 : "account_created_at_1" ∈ df.cols
    · rw [if_pos h2, if_pos h2]
      by_cases hi : i < (colValuesD df "account_created_at_1").length
      · exact map_getD_lt _ _ _ _ _ hi
      · rw [List.getD_eq_default _ _ (by simpa using not_lt.mp hi),
          List.getD_eq_default _ _ (not_lt.mp hi)]
        rfl
    · rw [if_neg h2, if_neg h2]
      exact replicate_getD n i Option.none

/-- C7: every produced row's `account_created_at` is taken from the
canonical column `account_created_at` when present, else from
`account_created_at_1` when present, else is null; values are parsed
with the fixed format `%Y-%m-%d %H:%M:%S.%f` and a non-matching value
becomes null rather than raising. -/
theorem C7_account_created_at :
    (∀ df out, transform_data df = .ok out → ∀ i, i < out.length →
      (out.getD i default).account_created_at =
        (if "account_created_at" ∈ df.cols then
          parseDateVal ((colValuesD df "account_created_at").getD i PyVal.none)
        else if "account_created_at_1" ∈ df.cols then
          parseDateVal ((colValuesD df "account_created_at_1").getD i PyVal.none)
        else Option.none)) ∧
    parseDateVal (.str "2023-01-01 10:00:00.123456") =
      some ⟨2023, 1, 1, 10, 0, 0, 123456⟩ ∧
    parseDateVal (.str "01/01/2023 10:00:00.5") = Option.none ∧
    parseDateVal (.str "2023-01-01 10:00:00") = Option.none := by
  refine ⟨?_, rfl, rfl, rfl⟩
  intro df out h i hi
  obtain ⟨names, emails, addrRaw, streets, cities, posts, countries, txRaw, numTx, totals,
    _, _, _, _, _, _, _, _, _, _, hout⟩ := transform_data_ok_inv df out h
  subst hout
  have hi' : i < names.length := by simpa using hi
  rw [range_map_getD _ _ _ _ hi']
  exact transformDates_getD df names.length i

/-- The one-row DataFrame of the fixture shape with a date column. -/
def dfDate : Df :=
  ⟨["names", "mail", "address", "transactions", "account_created_at"],
   [[.str "A", .str "a@b", .str addrOkStr, .str "[]", .str "2023-01-01 10:00:00.123456"]]⟩

/-- The transformer's output for `dfDate`. -/
def outDate : List OutputRow :=
  [⟨.str "A", .str "a@b", .str "123 Main St", .str "Anytown", .str "12345", .str "USA",
    some ⟨2023, 1, 1, 10, 0, 0, 123456⟩, 0, 0⟩]

/-- Witness for C7: the date-column preference applied to a concrete
one-row frame carrying `account_created_at`. -/
theorem C7_witness :
    (outDate.getD 0 default).account_created_at =
      (if "account_created_at" ∈ dfDate.cols then
        parseDateVal ((colValuesD dfDate "account_created_at").getD 0 PyVal.none)
      else if "account_created_at_1" ∈ dfDate.cols then
        parseDateVal ((colValuesD dfDate "account_created_at_1").getD 0 PyVal.none)
      else Option.none) :=
  C7_account_created_at.1 dfDate outDate rfl 0 (by decide)

/-- The per-transaction amount the source code contributes to the
total: the Currency Amount Parser applied to the Python `str()`
rendering of `tx.get('amount', '€0,00')` (src/transformer.py:156-157).
Non-dict elements are unreachable in produced rows (they raise). -/
def codeTxAmount (tx : PyVal) : ℚ :=
  match tx with
  | .dict d => parse_currency (.str (pyStr (dictGet d "amount" (.str "€0,00"))))
  | _ => 0

/-- Modelled from the spec: the per-transaction amount of the §3/§4.5
invariant — the Currency Amount Parser applied to the transaction's
`amount` field itself, the field defaulting to the literal text
`"€0,00"` when missing.  Kept distinct from `codeTxAmount`, which
first applies Python `str()` to the field's value. -/
def specTxAmount (tx : PyVal) : ℚ :=
  match tx with
  | .dict d => parse_currency (dictGet d "amount" (.str "€0,00"))
  | _ => 0

/-- Modelled from the spec: `total_transaction_amount` as the spec
words it — the sum of `specTxAmount` over the parsed transactions. -/
def spec_total_transaction_amount (txs : List PyVal) : ℚ :=
  (txs.map specTxAmount).sum

theorem txAmount_ok (tx : PyVal) (a : ℚ) (h : txAmount tx = .ok a) :
    a = codeTxAmount tx := by
  cases tx with
  | dict d =>
    simp [txAmount] at h
    rw [← h]
    rfl
  | str _ => simp [txAmount] at h
  | int _ => simp [txAmount] at h
  | float _ => simp [txAmount] at h
  | bool _ => simp [txAmount] at h
  | none => simp [txAmount] at h
  | list _ => simp [txAmount] at h

theorem sumAmounts_ok : ∀ (txs : List PyVal) (acc t : ℚ),
    sumAmounts txs acc = .ok t → t = acc + (txs.map codeTxAmount).sum := by
  intro txs
  induction txs with
  | nil =>
    intro acc t h
    simp [sumAmounts] at h
    simp [← h]
  | cons tx rest ih =>
    intro acc t h
    unfold sumAmounts at h
    cases ha : txAmount tx <;> rw [ha] at h
    · exact absurd h (by simp)
    · rw [ih _ _ h, txAmount_ok tx _ ha]
      simp [List.map_cons, List.sum_cons]
      ring

theorem calcTotal_list (txs : List PyVal) (t : ℚ)
    (h : calcTotal (.list txs) = .ok t) : t = (txs.map codeTxAmount).sum := by
  unfold calcTotal pyIter at h
  have := sumAmounts_ok txs 0 t h
  simpa using this

/-- C2 (amended): for every produced output row, `num_transactions`
equals the length of the row's parsed transaction list and
`total_transaction_amount` equals the sum over those transactions of
the currency parser applied to the Python `str()` rendering of each
transaction's `amount` value (defaulting to the text `€0,00` when the
key is missing); an empty list yields count `0` and amount `0.0`. -/
theorem C2_transaction_invariant :
    ∀ df out, transform_data df = .ok out → ∀ i, i < out.length → ∀ txs,
      parse_transactions ((colValuesD df "transactions").getD i PyVal.none) = .list txs →
      (out.getD i default).num_transactions = txs.length ∧
      (out.getD i default).total_transaction_amount = (txs.map codeTxAmount).sum := by
  intro df out h i hi txs htxs
  obtain ⟨names, emails, addrRaw, streets, cities, posts, countries, txRaw, numTx, totals,
    hn, hm, ha, hs, hc, hp, hco, ht, hlen, htot, hout⟩ := transform_data_ok_inv df out h
  subst hout
  have hi' : i < names.length := by simpa using hi
  rw [range_map_getD _ _ _ _ hi']
  have htxval : txRaw = colValuesD df "transactions" := getCol_ok_val df _ _ ht
  rw [← htxval] at htxs
  by_cases hit : i < txRaw.length
  · have h1 := mapE_ok_getD pyLen _ _ hlen i (by simpa using hit)
      (parse_transactions PyVal.none) 0
    have h2 := mapE_ok_getD calcTotal _ _ htot i (by simpa using hit)
      (parse_transactions PyVal.none) 0
    rw [map_getD_lt parse_transactions txRaw i PyVal.none _ hit, htxs] at h1 h2
    constructor
    · have h1' : Except.ok (ε := String) txs.length = .ok (numTx.getD i 0) := h1
      injection h1' with h1''
      exact h1''.symm
    · exact calcTotal_list txs _ h2
  · have hge : txRaw.length ≤ i := not_lt.mp hit
    have hv : txRaw.getD i PyVal.none = PyVal.none := List.getD_eq_default _ _ hge
    rw [hv] at htxs
    have h0 : PyVal.list ([] : List PyVal) = PyVal.list txs := htxs
    have h0' : ([] : List PyVal) = txs := by injection h0
    have hlen1 : numTx.length = txRaw.length := by
      have := mapE_ok_length pyLen _ _ hlen
      simpa using this
    have hlen2 : totals.length = txRaw.length := by
      have := mapE_ok_length calcTotal _ _ htot
      simpa using this
    have e1 : numTx.getD i 0 = 0 := List.getD_eq_default _ _ (by omega)
    have e2 : totals.getD i 0 = 0 := List.getD_eq_default _ _ (by omega)
    rw [← h0']
    exact ⟨by simpa using e1, by simpa using e2⟩

/-- A transactions field whose single transaction has the JSON number 5
as its amount: `[{'amount': 5}]`. -/
def txIntAmount : String :=
  String.mk ('[' :: '\x7b' :: '\'' :: ("amount".data ++ ['\'', ':', ' ', '5', '\x7d', ']']))

/-- A one-row DataFrame whose transaction amount is a JSON number. -/
def dfC2 : Df :=
  ⟨["names", "mail", "address", "transactions"],
   [[.str "A", .str "a@b", .str addrOkStr, .str txIntAmount]]⟩

/-- The row `transform_data` produces for `dfC2` (the total written as
the unreduced sum the fold builds). -/
def rowC2 : OutputRow :=
  ⟨.str "A", .str "a@b", .str "123 Main St", .str "Anytown", .str "12345", .str "USA",
   Option.none, 1, 0 + mkRat 5 1⟩

/-- C2 counterexample: for the produced row of `dfC2`, the code's
`total_transaction_amount` is `5.0` (the parser is applied to
`str(5) = "5"`), while the claim's formula — the currency parser
applied to the amount field itself — gives `0.0`, since the field's
value is the non-string `5`. -/
theorem C2_counterexample :
    transform_data dfC2 = .ok [rowC2] ∧
    parse_transactions (.str txIntAmount) = .list [.dict [("amount", .int 5)]] ∧
    rowC2.total_transaction_amount = 5 ∧
    spec_total_transaction_amount [.dict [("amount", .int 5)]] = 0 ∧
    (5 : ℚ) ≠ 0 := by
  refine ⟨rfl, rfl, ?_, ?_, by norm_num⟩
  · show (0 + mkRat 5 1 : ℚ) = 5
    rw [Rat.mkRat_eq_div]
    norm_num
  · have h : spec_total_transaction_amount [.dict [("amount", .int 5)]] = [(0 : ℚ)].sum := rfl
    rw [h]
    simp

/-- Witness for C2: the empty-transaction row of `dfNoDate` has count 0
and amount 0.0. -/
theorem C2_witness :
    (outNoDate.getD 0 default).num_transactions = ([] : List PyVal).length ∧
    (outNoDate.getD 0 default).total_transaction_amount =
      (([] : List PyVal).map codeTxAmount).sum :=
  C2_transaction_invariant dfNoDate outNoDate rfl 0 (by decide) [] rfl

/-! ## Supporting lemmas for the address-shape roundtrip (C6) -/

theorem takeWhile_no_quote : ∀ (body rest : List Char), (∀ ch ∈ body, ch ≠ '\'') →
    (body ++ '\'' :: rest).takeWhile (fun c => c ≠ '\'') = body := by
  intro body
  induction body with
  | nil => intro rest _; simp [List.takeWhile_cons]
  | cons b bs ih =>
    intro rest h
    have hb : b ≠ '\'' := h b (by simp)
    simp only [List.cons_append, List.takeWhile_cons]
    rw [if_pos (by simp [hb])]
    rw [ih rest (fun ch hch => h ch (by simp [hch]))]

theorem dropWhile_no_quote : ∀ (body rest : List Char), (∀ ch ∈ body, ch ≠ '\'') →
    (body ++ '\'' :: rest).dropWhile (fun c => c ≠ '\'') = '\'' :: rest := by
  intro body
  induction body with
  | nil => intro rest _; simp [List.dropWhile_cons]
  | cons b bs ih =>
    intro rest h
    have hb : b ≠ '\'' := h b (by simp)
    simp only [List.cons_append, List.dropWhile_cons]
    rw [if_pos (by simp [hb])]
    exact ih rest (fun ch hch => h ch (by simp [hch]))

theorem parseLit_ws : ∀ (f : Nat) (c : Char) (cs : List Char), pyWs c = true →
    parseLit f (c :: cs) = parseLit f cs := by
  intro f c cs h
  cases f with
  | zero => rfl
  | succ f' =>
    have hd : (c :: cs).dropWhile pyWs = cs.dropWhile pyWs := by
      simp [List.dropWhile_cons, h]
    simp only [parseLit, hd]

theorem parseEntriesLit_ws : ∀ (f : Nat) (acc : List (String × PyVal)) (c : Char)
    (cs : List Char), pyWs c = true →
    parseEntriesLit f acc (c :: cs) = parseEntriesLit f acc cs := by
  intro f acc c cs h
  cases f with
  | zero => rfl
  | succ f' =>
    simp only [parseEntriesLit, parseLit_ws f' c cs h]

theorem parseString_step (f : Nat) (body rest : List Char) (h : ∀ ch ∈ body, ch ≠ '\'') :
    parseLit (f + 1) ('\'' :: (body ++ '\'' :: rest)) = some (.str (String.mk body), rest) := by
  have hd : ('\'' :: (body ++ '\'' :: rest)).dropWhile pyWs =
      '\'' :: (body ++ '\'' :: rest) := by
    simp [List.dropWhile_cons, pyWs]
  simp only [parseLit, hd, takeWhile_no_quote body rest h, dropWhile_no_quote body rest h]

theorem entry_step_comma (f : Nat) (acc : List (String × PyVal)) (k v r4 : List Char)
    (hk : ∀ ch ∈ k, ch ≠ '\'') (hv : ∀ ch ∈ v, ch ≠ '\'') :
    parseEntriesLit (f + 2) acc
      ('\'' :: (k ++ '\'' :: ':' :: ' ' :: '\'' :: (v ++ '\'' :: ',' :: r4))) =
      parseEntriesLit (f + 1) (insertKV acc (String.mk k) (.str (String.mk v))) r4 := by
  have h1 := parseString_step f k (':' :: ' ' :: '\'' :: (v ++ '\'' :: ',' :: r4)) hk
  have h2 : parseLit (f + 1) (' ' :: '\'' :: (v ++ '\'' :: ',' :: r4)) =
      some (.str (String.mk v), ',' :: r4) := by
    rw [parseLit_ws (f + 1) ' ' _ (by simp [pyWs])]
    exact parseString_step f v (',' :: r4) hv
  conv_lhs => rw [show ((f + 2) : Nat) = (f + 1) + 1 from rfl]
  conv_lhs => rw [parseEntriesLit]
  rw [h1]
  simp only [List.dropWhile_cons]
  simp only [show pyWs ':' = false from rfl, Bool.false_eq_true, if_false]
  rw [h2]
  simp [List.dropWhile_cons, pyWs]

theorem entry_step_close (f : Nat) (acc : List (String × PyVal)) (k v r4 : List Char)
    (hk : ∀ ch ∈ k, ch ≠ '\'') (hv : ∀ ch ∈ v, ch ≠ '\'') :
    parseEntriesLit (f + 2) acc
      ('\'' :: (k ++ '\'' :: ':' :: ' ' :: '\'' :: (v ++ '\'' :: '\x7d' :: r4))) =
      some (insertKV acc (String.mk k) (.str (String.mk v)), r4) := by
  have h1 := parseString_step f k (':' :: ' ' :: '\'' :: (v ++ '\'' :: '\x7d' :: r4)) hk
  have h2 : parseLit (f + 1) (' ' :: '\'' :: (v ++ '\'' :: '\x7d' :: r4)) =
      some (.str (String.mk v), '\x7d' :: r4) := by
    rw [parseLit_ws (f + 1) ' ' _ (by simp [pyWs])]
    exact parseString_step f v ('\x7d' :: r4) hv
  conv_lhs => rw [show ((f + 2) : Nat) = (f + 1) + 1 from rfl]
  conv_lhs => rw [parseEntriesLit]
  rw [h1]
  simp only [List.dropWhile_cons]
  simp only [show pyWs ':' = false from rfl, Bool.false_eq_true, if_false]
  rw [h2]
  simp [List.dropWhile_cons, pyWs]


theorem inner_entries (g : Nat) (acc : List (String × PyVal))
    (street city post country r4 : List Char)
    (hs : ∀ ch ∈ street, ch ≠ '\'') (hc : ∀ ch ∈ city, ch ≠ '\'')
    (hp : ∀ ch ∈ post, ch ≠ '\'') (hk : ∀ ch ∈ country, ch ≠ '\'') :
    parseEntriesLit (g + 5) acc
      ('\'' :: ("streeet".data ++ '\'' :: ':' :: ' ' :: '\'' :: (street ++ '\'' :: ',' :: ' ' ::
       '\'' :: ("city".data ++ '\'' :: ':' :: ' ' :: '\'' :: (city ++ '\'' :: ',' :: ' ' ::
       '\'' :: ("post code".data ++ '\'' :: ':' :: ' ' :: '\'' :: (post ++ '\'' :: ',' :: ' ' ::
       '\'' :: ("country".data ++ '\'' :: ':' :: ' ' :: '\'' ::
         (country ++ '\'' :: '\x7d' :: r4))))))))) =
      some (insertKV (insertKV (insertKV (insertKV acc (String.mk "streeet".data)
        (.str (String.mk street))) (String.mk "city".data) (.str (String.mk city)))
        (String.mk "post code".data) (.str (String.mk post)))
        (String.mk "country".data) (.str (String.mk country)), r4) := by
  show parseEntriesLit ((g + 3) + 2) acc _ = _
  rw [entry_step_comma (g + 3) acc "streeet".data street _ (by decide) hs]
  rw [parseEntriesLit_ws _ _ ' ' _ (by simp [pyWs])]
  show parseEntriesLit ((g + 2) + 2) _ _ = _
  rw [entry_step_comma (g + 2) _ "city".data city _ (by decide) hc]
  rw [parseEntriesLit_ws _ _ ' ' _ (by simp [pyWs])]
  show parseEntriesLit ((g + 1) + 2) _ _ = _
  rw [entry_step_comma (g + 1) _ "post code".data post _ (by decide) hp]
  rw [parseEntriesLit_ws _ _ ' ' _ (by simp [pyWs])]
  show parseEntriesLit (g + 2) _ _ = _
  rw [entry_step_close g _ "country".data country _ (by decide) hk]

theorem parseLit_openbrace (f : Nat) (r : List Char) :
    parseLit (f + 1) ('\x7b' :: '\'' :: r) =
      (parseEntriesLit f [] ('\'' :: r)).map (fun p => (.dict p.1, p.2)) := by
  conv_lhs => rw [parseLit]
  simp [List.dropWhile_cons, pyWs]

theorem entry_val_close (f : Nat) (acc : List (String × PyVal)) (k rest2 r4 : List Char)
    (v : PyVal) (hk : ∀ ch ∈ k, ch ≠ '\'')
    (hv : parseLit (f + 1) rest2 = some (v, '\x7d' :: r4)) :
    parseEntriesLit (f + 2) acc ('\'' :: (k ++ '\'' :: ':' :: rest2)) =
      some (insertKV acc (String.mk k) v, r4) := by
  have h1 := parseString_step f k (':' :: rest2) hk
  conv_lhs => rw [show ((f + 2) : Nat) = (f + 1) + 1 from rfl]
  conv_lhs => rw [parseEntriesLit]
  rw [h1]
  simp only [List.dropWhile_cons, show pyWs ':' = false from rfl, Bool.false_eq_true, if_false]
  rw [hv]
  simp [List.dropWhile_cons, pyWs]

theorem render_parse (street city post country : List Char)
    (hs : ∀ ch ∈ street, ch ≠ '\'') (hc : ∀ ch ∈ city, ch ≠ '\'')
    (hp : ∀ ch ∈ post, ch ≠ '\'') (hk : ∀ ch ∈ country, ch ≠ '\'') (g : Nat) :
    parseLit (g + 8) (renderAddrChars street city post country) =
      some (.dict [("address", .dict [("streeet", .str (String.mk street)),
        ("city", .str (String.mk city)), ("post code", .str (String.mk post)),
        ("country", .str (String.mk country))])], []) := by
  have hshape : renderAddrChars street city post country =
      '\x7b' :: '\'' :: ("address".data ++ '\'' :: ':' :: ' ' :: '\x7b' :: '\'' :: ("streeet".data ++ '\'' :: ':' :: ' ' :: '\'' :: (street ++ '\'' :: ',' :: ' ' :: '\'' :: ("city".data ++ '\'' :: ':' :: ' ' :: '\'' :: (city ++ '\'' :: ',' :: ' ' :: '\'' :: ("post code".data ++ '\'' :: ':' :: ' ' :: '\'' :: (post ++ '\'' :: ',' :: ' ' :: '\'' :: ("country".data ++ '\'' :: ':' :: ' ' :: '\'' :: (country ++ '\'' :: '\x7d' :: '\x7d' :: []))))))))) := by
    simp [renderAddrChars, renderAddrMid]
  rw [hshape]
  show parseLit ((g + 7) + 1) _ = _
  rw [parseLit_openbrace (g + 7)]
  have hval : parseLit ((g + 5) + 1) (' ' :: '\x7b' :: '\'' :: ("streeet".data ++ '\'' :: ':' :: ' ' :: '\'' :: (street ++ '\'' :: ',' :: ' ' :: '\'' :: ("city".data ++ '\'' :: ':' :: ' ' :: '\'' :: (city ++ '\'' :: ',' :: ' ' :: '\'' :: ("post code".data ++ '\'' :: ':' :: ' ' :: '\'' :: (post ++ '\'' :: ',' :: ' ' :: '\'' :: ("country".data ++ '\'' :: ':' :: ' ' :: '\'' :: (country ++ '\'' :: '\x7d' :: '\x7d' :: []))))))))) =
      some (.dict (insertKV (insertKV (insertKV (insertKV [] (String.mk "streeet".data)
        (.str (String.mk street))) (String.mk "city".data) (.str (String.mk city)))
        (String.mk "post code".data) (.str (String.mk post)))
        (String.mk "country".data) (.str (String.mk country))), '\x7d' :: []) := by
    rw [parseLit_ws _ ' ' _ (by simp [pyWs])]
    rw [parseLit_openbrace (g + 5)]
    rw [inner_entries g [] street city post country ['\x7d'] hs hc hp hk]
    rfl
  have houter := entry_val_close (g + 5) [] "address".data _ _ _ (by decide) hval
  conv_lhs => rw [show ((g + 7) : Nat) = (g + 5) + 2 from rfl]
  rw [houter]
  rfl

theorem pyStrip_shape (c1 c2 : Char) (h1 : pyWs c1 = false) (h2 : pyWs c2 = false)
    (mid : List Char) : pyStrip (c1 :: (mid ++ [c2])) = c1 :: (mid ++ [c2]) := by
  unfold pyStrip
  rw [List.dropWhile_cons]
  simp only [h1, Bool.false_eq_true, if_false]
  have hrev : (c1 :: (mid ++ [c2])).reverse = c2 :: (mid.reverse ++ [c1]) := by simp
  rw [hrev, List.dropWhile_cons]
  simp only [h2, Bool.false_eq_true, if_false]
  simp

theorem head?_ne_of_not_mem {x : Char} {l : List Char} (h : x ∉ l) : l.head? ≠ some x := by
  cases l with
  | nil => simp
  | cons a t =>
    simp only [List.head?_cons, ne_eq, Option.some.injEq]
    intro ha
    exact h (by simp [ha])

theorem quoteHyph_no_hyphen : ∀ (fuel : Nat) (cs : List Char), '-' ∉ cs →
    quoteHyph fuel cs = cs := by
  intro fuel
  induction fuel with
  | zero => intro cs _; rfl
  | succ f ih =>
    intro cs h
    cases cs with
    | nil => rfl
    | cons c cs' =>
      by_cases hd : c.isDigit
      · have hsub : '-' ∉ (c :: cs').dropWhile Char.isDigit := by
          intro hm
          exact h ((List.dropWhile_sublist Char.isDigit).subset hm)
        have hh := head?_ne_of_not_mem hsub
        simp only [quoteHyph, hd, if_true, hh, if_false]
        rw [ih _ hsub]
        exact List.takeWhile_append_dropWhile Char.isDigit (c :: cs')
      · have h' : '-' ∉ cs' := fun hm => h (by simp [hm])
        simp only [quoteHyph, hd, Bool.false_eq_true, if_false]
        rw [ih _ h']

theorem sub2_no_hyphen : ∀ (fuel : Nat) (cs : List Char), '-' ∉ cs →
    sub2 fuel cs = cs := by
  intro fuel
  induction fuel with
  | zero => intro cs _; rfl
  | succ f ih =>
    intro cs h
    cases cs with
    | nil => rfl
    | cons c cs' =>
      have h' : '-' ∉ cs' := fun hm => h (by simp [hm])
      by_cases hpre : sub2Pat.isPrefixOf (c :: cs')
      · have hsub : '-' ∉ ((c :: cs').drop sub2Pat.length).dropWhile Char.isDigit := by
          intro hm
          exact h (List.drop_subset _ _ ((List.dropWhile_sublist Char.isDigit).subset hm))
        have hh := head?_ne_of_not_mem hsub
        by_cases hd1 : (((c :: cs').drop sub2Pat.length).takeWhile Char.isDigit).isEmpty
        · simp only [sub2, hpre, if_true, hd1]
          rw [ih _ h']
        · simp only [sub2, hpre, if_true, hd1, Bool.false_eq_true, if_false, hh]
          rw [ih _ h']
      · simp only [sub2, hpre, Bool.false_eq_true, if_false]
        rw [ih _ h']

theorem safeChar_spec (c : Char) (h : safeChar c = true) :
    c ≠ '\'' ∧ c ≠ '-' ∧ c ≠ '\x7b' ∧ c ≠ '\x7d' := by
  refine ⟨?_, ?_, ?_, ?_⟩ <;> rintro rfl <;> revert h <;> decide

theorem render_no_hyphen (street city post country : List Char)
    (h1 : '-' ∉ street) (h2 : '-' ∉ city) (h3 : '-' ∉ post) (h4 : '-' ∉ country) :
    '-' ∉ renderAddrChars street city post country := by
  intro hmem
  simp [renderAddrChars, renderAddrMid, h1, h2, h3, h4] at hmem

theorem render_count_openbrace (street city post country : List Char)
    (h1 : '\x7b' ∉ street) (h2 : '\x7b' ∉ city) (h3 : '\x7b' ∉ post)
    (h4 : '\x7b' ∉ country) :
    (renderAddrChars street city post country).count '\x7b' = 2 := by
  have c1 : street.count '\x7b' = 0 := List.count_eq_zero.mpr h1
  have c2 : city.count '\x7b' = 0 := List.count_eq_zero.mpr h2
  have c3 : post.count '\x7b' = 0 := List.count_eq_zero.mpr h3
  have c4 : country.count '\x7b' = 0 := List.count_eq_zero.mpr h4
  have d1 : ("address".data).count '\x7b' = 0 := by decide
  have d2 : ("streeet".data).count '\x7b' = 0 := by decide
  have d3 : ("city".data).count '\x7b' = 0 := by decide
  have d4 : ("post code".data).count '\x7b' = 0 := by decide
  have d5 : ("country".data).count '\x7b' = 0 := by decide
  simp only [renderAddrChars, renderAddrMid, List.count_append, List.count_cons,
    c1, c2, c3, c4, d1, d2, d3, d4, d5]
  decide

theorem render_count_closebrace (street city post country : List Char)
    (h1 : '\x7d' ∉ street) (h2 : '\x7d' ∉ city) (h3 : '\x7d' ∉ post)
    (h4 : '\x7d' ∉ country) :
    (renderAddrChars street city post country).count '\x7d' = 2 := by
  have c1 : street.count '\x7d' = 0 := List.count_eq_zero.mpr h1
  have c2 : city.count '\x7d' = 0 := List.count_eq_zero.mpr h2
  have c3 : post.count '\x7d' = 0 := List.count_eq_zero.mpr h3
  have c4 : country.count '\x7d' = 0 := List.count_eq_zero.mpr h4
  have d1 : ("address".data).count '\x7d' = 0 := by decide
  have d2 : ("streeet".data).count '\x7d' = 0 := by decide
  have d3 : ("city".data).count '\x7d' = 0 := by decide
  have d4 : ("post code".data).count '\x7d' = 0 := by decide
  have d5 : ("country".data).count '\x7d' = 0 := by decide
  simp only [renderAddrChars, renderAddrMid, List.count_append, List.count_cons,
    c1, c2, c3, c4, d1, d2, d3, d4, d5]
  decide

theorem repairAddr_render (street city post country : List Char)
    (hh1 : '-' ∉ street) (hh2 : '-' ∉ city) (hh3 : '-' ∉ post) (hh4 : '-' ∉ country)
    (hb1 : '\x7b' ∉ street) (hb2 : '\x7b' ∉ city) (hb3 : '\x7b' ∉ post)
    (hb4 : '\x7b' ∉ country)
    (hc1 : '\x7d' ∉ street) (hc2 : '\x7d' ∉ city) (hc3 : '\x7d' ∉ post)
    (hc4 : '\x7d' ∉ country) :
    repairAddr (String.mk (renderAddrChars street city post country)) =
      renderAddrChars street city post country := by
  simp only [repairAddr]
  have hstrip : pyStrip (renderAddrChars street city post country) =
      renderAddrChars street city post country := by
    rw [show renderAddrChars street city post country =
      '\x7b' :: (renderAddrMid street city post country ++ ['\x7d']) from rfl]
    exact pyStrip_shape '\x7b' '\x7d' rfl rfl _
  rw [hstrip]
  have hq : quoteHyph (renderAddrChars street city post country).length
      (renderAddrChars street city post country) =
      renderAddrChars street city post country :=
    quoteHyph_no_hyphen _ _ (render_no_hyphen street city post country hh1 hh2 hh3 hh4)
  rw [hq]
  have hbf : braceFix (renderAddrChars street city post country) =
      renderAddrChars street city post country := by
    unfold braceFix
    rw [render_count_openbrace street city post country hb1 hb2 hb3 hb4,
        render_count_closebrace street city post country hc1 hc2 hc3 hc4]
    simp
  rw [hbf]
  exact sub2_no_hyphen _ _ (render_no_hyphen street city post country hh1 hh2 hh3 hh4)

theorem literalEval_render (street city post country : List Char)
    (hs : ∀ ch ∈ street, ch ≠ '\'') (hc : ∀ ch ∈ city, ch ≠ '\'')
    (hp : ∀ ch ∈ post, ch ≠ '\'') (hk : ∀ ch ∈ country, ch ≠ '\'') :
    literalEval (renderAddrChars street city post country) =
      some (.dict [("address", .dict [("streeet", .str (String.mk street)),
        ("city", .str (String.mk city)), ("post code", .str (String.mk post)),
        ("country", .str (String.mk country))])]) := by
  unfold literalEval
  have hlen6 : 6 ≤ (renderAddrChars street city post country).length := by
    have l1 : ("address".data).length = 7 := rfl
    simp [renderAddrChars, renderAddrMid, List.length_append, l1]
  have heq : (renderAddrChars street city post country).length + 2 =
      ((renderAddrChars street city post country).length - 6) + 8 := by omega
  rw [heq, render_parse street city post country hs hc hp hk]
  rfl

theorem parse_address_render (street city post country : List Char)
    (h1 : ∀ ch ∈ street, safeChar ch = true) (h2 : ∀ ch ∈ city, safeChar ch = true)
    (h3 : ∀ ch ∈ post, safeChar ch = true) (h4 : ∀ ch ∈ country, safeChar ch = true) :
    parse_address (.str (String.mk (renderAddrChars street city post country))) =
      some [("street", .str (String.mk street)), ("city", .str (String.mk city)),
        ("post_code", .str (String.mk post)), ("country", .str (String.mk country))] := by
  have nq : ∀ (l : List Char), (∀ ch ∈ l, safeChar ch = true) → ∀ ch ∈ l, ch ≠ '\'' :=
    fun l hl ch hch => (safeChar_spec ch (hl ch hch)).1
  have nh : ∀ (l : List Char), (∀ ch ∈ l, safeChar ch = true) → '-' ∉ l :=
    fun l hl hm => (safeChar_spec '-' (hl '-' hm)).2.1 rfl
  have nb : ∀ (l : List Char), (∀ ch ∈ l, safeChar ch = true) → '\x7b' ∉ l :=
    fun l hl hm => (safeChar_spec _ (hl _ hm)).2.2.1 rfl
  have nc : ∀ (l : List Char), (∀ ch ∈ l, safeChar ch = true) → '\x7d' ∉ l :=
    fun l hl hm => (safeChar_spec _ (hl _ hm)).2.2.2 rfl
  simp only [parse_address]
  rw [repairAddr_render street city post country (nh _ h1) (nh _ h2) (nh _ h3) (nh _ h4)
    (nb _ h1) (nb _ h2) (nb _ h3) (nb _ h4) (nc _ h1) (nc _ h2) (nc _ h3) (nc _ h4)]
  rw [literalEval_render street city post country (nq _ h1) (nq _ h2) (nq _ h3) (nq _ h4)]
  rfl

/-- C6 counterexample: the address string built from the documented malformed
shape with street value `12-34 Main St` follows the documented shape, yet
`_parse_address` returns Python `None` (here `Option.none`): the repair step
rewrites the hyphenated digit group `12-34` via the regex substitutions,
corrupting the literal so that evaluation fails, instead of recovering the
four fields. -/
theorem C6_counterexample :
    parse_address (.str (String.mk (renderAddrChars "12-34 Main St".data "Anytown".data
        "12345".data "USA".data))) = Option.none ∧
    Option.none ≠ some [("street", PyVal.str "12-34 Main St"), ("city", PyVal.str "Anytown"),
      ("post_code", PyVal.str "12345"), ("country", PyVal.str "USA")] :=
  ⟨rfl, by simp⟩

/-- C6 (amended): for every address string following the documented malformed
shape whose four inner field values draw only on the safe character set
(ASCII letters, digits and space - in particular no hyphen, quote or brace,
so the regex repair leaves the string unchanged), `_parse_address` recovers
all four fields correctly; in particular the documented example
`\x7b'address': \x7b'streeet': '123 Main St', 'city': 'Anytown',
'post code': '12345', 'country': 'USA'\x7d\x7d` yields street `123 Main St`,
city `Anytown`, post_code `12345`, country `USA`, and an empty inner mapping
defaults every field to the empty string (post code coerced to string). -/
theorem C6_documented_shape :
    (∀ street city post country : List Char,
      (∀ ch ∈ street, safeChar ch = true) → (∀ ch ∈ city, safeChar ch = true) →
      (∀ ch ∈ post, safeChar ch = true) → (∀ ch ∈ country, safeChar ch = true) →
      parse_address (.str (String.mk (renderAddrChars street city post country))) =
        some [("street", PyVal.str (String.mk street)), ("city", PyVal.str (String.mk city)),
          ("post_code", PyVal.str (String.mk post)),
          ("country", PyVal.str (String.mk country))]) ∧
    parse_address (.str (String.mk (renderAddrChars "123 Main St".data "Anytown".data
        "12345".data "USA".data))) =
      some [("street", PyVal.str "123 Main St"), ("city", PyVal.str "Anytown"),
        ("post_code", PyVal.str "12345"), ("country", PyVal.str "USA")] ∧
    parse_address (.str (String.mk (['\x7b', '\''] ++ "address".data ++
        ['\'', ':', ' ', '\x7b', '\x7d', '\x7d']))) =
      some [("street", PyVal.str ""), ("city", PyVal.str ""), ("post_code", PyVal.str ""),
        ("country", PyVal.str "")] :=
  ⟨parse_address_render, rfl, rfl⟩

/-- Witness for C6_documented_shape: the universal part applied at the
concrete safe-charset address `1 Elm Rd, Springfield, 99999, Canada`. -/
theorem C6_witness :
    parse_address (.str (String.mk (renderAddrChars "1 Elm Rd".data "Springfield".data
        "99999".data "Canada".data))) =
      some [("street", PyVal.str (String.mk "1 Elm Rd".data)),
        ("city", PyVal.str (String.mk "Springfield".data)),
        ("post_code", PyVal.str (String.mk "99999".data)),
        ("country", PyVal.str (String.mk "Canada".data))] :=
  C6_documented_shape.1 "1 Elm Rd".data "Springfield".data "99999".data "Canada".data
    (by decide) (by decide) (by decide) (by decide)
